import Mathlib

/-!
Verification of the StyleForge token parsing / color conversion core.

Shallow embedding conventions:
* JavaScript strings are Lean `String`s, processed as `List Char`.
  `toLowerCase` is modelled on the ASCII letters (the inputs of interest are
  CSS color/token syntax); `trim` uses the usual JS whitespace set.
* A JavaScript number produced by parsing is modelled as `Option ℚ`,
  where `none` plays the role of `NaN` (JS `parseFloat`/`parseInt` return
  `NaN` on unparseable input, and `NaN` propagates through arithmetic and
  comparisons).  Parsed CSS numerals are always decimal rationals, so `ℚ`
  is exact for them.  The `Infinity` literal accepted by `parseFloat` is
  not modelled (treated as `NaN`); it is unreachable from the CSS digit
  classes used by the regexes under study.
* The oklch → sRGB conversion uses genuine transcendental functions
  (`cos`, `sin`, `x ^ (1/2.4)`), so color channels are modelled as
  `Option ℝ` (`none` = `NaN`); that part of the development is
  noncomputable, everything syntactic stays computable.
* Each JS regular expression of the source is compiled by hand into a
  leftmost-match scanner over `List Char`, including the greedy
  backtracking behaviour where it is observable (the `rgb()` pattern).
-/

set_option maxRecDepth 10000

namespace StyleForge

/-- JS number obtained from parsing: `none` models `NaN`. -/
abbrev JSQ := Option ℚ

/-- JS number in the real-valued color pipeline: `none` models `NaN`. -/
abbrev JSR := Option ℝ

/-! ## Character classes and elementary string operations -/

/-- JS whitespace (the set relevant to `trim` and the regex class `\s`). -/
def jsSpace (c : Char) : Bool :=
  c = ' ' || c = '\t' || c = '\n' || c = '\r' || c = '\x0b' || c = '\x0c' || c = ' '

/-- ASCII lowercasing of one character, as done by `String.prototype.toLowerCase`
on the ASCII range (non-ASCII characters are left unchanged by this model). -/
def jsLowerChar (c : Char) : Char :=
  match c with
  | 'A' => 'a' | 'B' => 'b' | 'C' => 'c' | 'D' => 'd' | 'E' => 'e' | 'F' => 'f'
  | 'G' => 'g' | 'H' => 'h' | 'I' => 'i' | 'J' => 'j' | 'K' => 'k' | 'L' => 'l'
  | 'M' => 'm' | 'N' => 'n' | 'O' => 'o' | 'P' => 'p' | 'Q' => 'q' | 'R' => 'r'
  | 'S' => 's' | 'T' => 't' | 'U' => 'u' | 'V' => 'v' | 'W' => 'w' | 'X' => 'x'
  | 'Y' => 'y' | 'Z' => 'z' | other => other

/-- `String.prototype.toLowerCase` (ASCII model). -/
def jsToLower (s : String) : String := ⟨s.data.map jsLowerChar⟩

/-- Trim on a character list: drop leading and trailing JS whitespace. -/
def trimL (l : List Char) : List Char :=
  ((l.dropWhile jsSpace).reverse.dropWhile jsSpace).reverse

/-- `String.prototype.trim`. -/
def jsTrim (s : String) : String := ⟨trimL s.data⟩

/-- Does `p` occur as a prefix of `l`? (regex literal matching) -/
def startsWithL : List Char → List Char → Bool
  | [], _ => true
  | _ :: _, [] => false
  | p :: ps, c :: cs => p == c && startsWithL ps cs

/-- Strip the literal `p` from the front of `l`, if present. -/
def stripLit : List Char → List Char → Option (List Char)
  | [], l => some l
  | _ :: _, [] => none
  | p :: ps, c :: cs => if p == c then stripLit ps cs else none

/-- Does `pat` occur anywhere in `l`? (substring test) -/
def occursL (pat : List Char) : List Char → Bool
  | [] => startsWithL pat []
  | c :: cs => startsWithL pat (c :: cs) || occursL pat cs

/-- `String.prototype.includes`. -/
def jsIncludes (s pat : String) : Bool := occursL pat.data s.data

/-- `String.prototype.startsWith`. -/
def jsStartsWith (s pat : String) : Bool := startsWithL pat.data s.data

/-- `String.prototype.endsWith`. -/
def jsEndsWith (s pat : String) : Bool := startsWithL pat.data.reverse s.data.reverse

/-- Replace the first occurrence of the literal `pat` (JS
`String.prototype.replace` with a string pattern); no occurrence leaves the
string unchanged. -/
def replaceFirstL (pat repl : List Char) : List Char → List Char
  | [] => if startsWithL pat [] then repl else []
  | c :: cs =>
    match stripLit pat (c :: cs) with
    | some rest => repl ++ rest
    | none => c :: replaceFirstL pat repl cs

/-- JS `s.replace(pat, repl)` for plain-string `pat`. -/
def jsReplaceFirst (s pat repl : String) : String := ⟨replaceFirstL pat.data repl.data s.data⟩

/-- JS `s.split(sep)` for a one-character separator: always returns at least
one (possibly empty) piece. -/
def splitOnCharL (sep : Char) : List Char → List (List Char)
  | [] => [[]]
  | c :: cs =>
    if c = sep then [] :: splitOnCharL sep cs
    else
      match splitOnCharL sep cs with
      | [] => [[c]]
      | piece :: rest => (c :: piece) :: rest

/-- JS `s.split("-")` and friends, as strings. -/
def jsSplitOnChar (sep : Char) (s : String) : List String :=
  (splitOnCharL sep s.data).map List.asString

theorem dropWhile_length_le (p : Char → Bool) (l : List Char) :
    (l.dropWhile p).length ≤ l.length := by
  induction l with
  | nil => simp
  | cons c cs ih =>
    by_cases h : p c = true
    · simpa [List.dropWhile, h] using Nat.le_succ_of_le ih
    · simp [List.dropWhile, h]

/-- JS `s.split(/\s+/)` on an input with no leading whitespace (every use in
the source applies it to trimmed text): splits at maximal whitespace runs; a
trailing run yields a final empty piece, and the empty string yields `[""]`. -/
def splitWsL : List Char → List (List Char)
  | [] => [[]]
  | c :: cs =>
    if jsSpace c then
      [] :: splitWsL (cs.dropWhile jsSpace)
    else
      match splitWsL cs with
      | [] => [[c]]
      | piece :: rest => (c :: piece) :: rest
termination_by l => l.length
decreasing_by
  · exact Nat.lt_succ_of_le (dropWhile_length_le _ _)
  · exact Nat.lt_succ_self _

/-- JS `s.trim().split(/\s+/)` semantics used by the shadow parser; the
leading-empty-piece case cannot arise because the input is trimmed first. -/
def jsSplitWs (s : String) : List String := (splitWsL s.data).map List.asString

/-- Collapse every whitespace run to a single space (`replace(/\s+/g, " ")`). -/
def collapseWsL : List Char → List Char
  | [] => []
  | c :: cs =>
    if jsSpace c then ' ' :: collapseWsL (cs.dropWhile jsSpace)
    else c :: collapseWsL cs
termination_by l => l.length
decreasing_by
  · exact Nat.lt_succ_of_le (dropWhile_length_le _ _)
  · exact Nat.lt_succ_self _

/-! ## JS numeric parsing (`parseFloat`, `parseInt(_, 16)`) -/

def digitVal (c : Char) : ℕ := c.toNat - '0'.toNat

def digitsToNat (l : List Char) : ℕ := l.foldl (fun acc c => 10 * acc + digitVal c) 0

/-- `parseFloat` body after whitespace/sign handling: an optional integer
part, an optional fraction, an optional well-formed exponent; `none` when no
digit is found (JS `NaN`). -/
def parseFloatCore (l : List Char) : Option ℚ :=
  let intPart := l.takeWhile Char.isDigit
  let rest1 := l.dropWhile Char.isDigit
  let (fracPart, rest2) :=
    match rest1 with
    | '.' :: r => (r.takeWhile Char.isDigit, r.dropWhile Char.isDigit)
    | _ => ([], rest1)
  if intPart.isEmpty && fracPart.isEmpty then none
  else
    let mant : ℚ := (digitsToNat intPart : ℚ) +
      (digitsToNat fracPart : ℚ) / ((10 : ℚ) ^ fracPart.length)
    let expo : ℤ :=
      match rest2 with
      | 'e' :: r | 'E' :: r =>
        match r with
        | '-' :: d => if (d.takeWhile Char.isDigit).isEmpty then 0
                      else -(digitsToNat (d.takeWhile Char.isDigit) : ℤ)
        | '+' :: d => if (d.takeWhile Char.isDigit).isEmpty then 0
                      else (digitsToNat (d.takeWhile Char.isDigit) : ℤ)
        | d => if (d.takeWhile Char.isDigit).isEmpty then 0
               else (digitsToNat (d.takeWhile Char.isDigit) : ℤ)
      | _ => 0
    some (mant * (10 : ℚ) ^ expo)

/-- JS `parseFloat`: skip whitespace, optional sign, then the longest numeric
prefix; `none` models `NaN`. -/
def jsParseFloat (s : String) : Option ℚ :=
  match s.data.dropWhile jsSpace with
  | '-' :: r => (parseFloatCore r).map Neg.neg
  | '+' :: r => parseFloatCore r
  | r => parseFloatCore r

/-- Hex digit class of `parseInt(_, 16)`: `0-9` (codes 48–57), `a-f`
(97–102), `A-F` (65–70); stated on `Char.toNat` for arithmetic reasoning. -/
def isHexDigit (c : Char) : Bool :=
  (48 ≤ c.toNat && c.toNat ≤ 57) || (97 ≤ c.toNat && c.toNat ≤ 102) ||
    (65 ≤ c.toNat && c.toNat ≤ 70)

def hexVal (c : Char) : ℕ :=
  if 48 ≤ c.toNat && c.toNat ≤ 57 then c.toNat - 48
  else if 97 ≤ c.toNat && c.toNat ≤ 102 then c.toNat - 97 + 10
  else c.toNat - 65 + 10

def hexToNat (l : List Char) : ℕ := l.foldl (fun acc c => 16 * acc + hexVal c) 0

/-- The optional `0x`/`0X` marker accepted by `parseInt(_, 16)`. -/
def hexStrip (l : List Char) : List Char :=
  match l with
  | '0' :: 'x' :: r => r
  | '0' :: 'X' :: r => r
  | r => r

/-- `parseInt(s, 16)` body: optional `0x`/`0X`, then the longest hex-digit
prefix; `none` (JS `NaN`) when that prefix is empty. -/
def parseIntHexCore (l : List Char) : Option ℤ :=
  let ds := (hexStrip l).takeWhile isHexDigit
  if ds.isEmpty then none else some (hexToNat ds : ℤ)

/-- JS `parseInt(s, 16)`: whitespace, optional sign, `0x` marker, hex run. -/
def jsParseIntHex (s : String) : Option ℤ :=
  match s.data.dropWhile jsSpace with
  | '-' :: r => (parseIntHexCore r).map Neg.neg
  | '+' :: r => parseIntHexCore r
  | r => parseIntHexCore r

/-- JS `s.slice(a, b)` for `0 ≤ a ≤ b` (the only form used here). -/
def jsSlice (s : String) (a b : ℕ) : String := ⟨(s.data.take b).drop a⟩

/-! ## NaN-aware rational arithmetic (JS numbers from parsing) -/

def qAdd (a b : JSQ) : JSQ := a.bind fun x => b.map fun y => x + y
def qSub (a b : JSQ) : JSQ := a.bind fun x => b.map fun y => x - y
def qMul (a b : JSQ) : JSQ := a.bind fun x => b.map fun y => x * y
def qAbs (a : JSQ) : JSQ := a.map abs
def qNeg (a : JSQ) : JSQ := a.map Neg.neg

/-- Division; every division in the source has a nonzero (or `NaN`) divisor,
so the `x/0 = Infinity` case of JS never arises and is mapped to `NaN`. -/
def qDiv (a b : JSQ) : JSQ :=
  a.bind fun x => b.bind fun y => if y = 0 then none else some (x / y)

/-- Truncation toward zero, as used by the JS `%` operator. -/
def qTrunc (q : ℚ) : ℤ := if 0 ≤ q then ⌊q⌋ else -⌊-q⌋

/-- JS remainder `a % b` for `b ≠ 0` (sign follows the dividend). -/
def qMod (a b : JSQ) : JSQ :=
  a.bind fun x => b.bind fun y =>
    if y = 0 then none else some (x - y * (qTrunc (x / y) : ℚ))

/-- JS `<` on possibly-NaN numbers: any comparison with `NaN` is false. -/
def qLt (a b : JSQ) : Bool :=
  match a, b with
  | some x, some y => decide (x < y)
  | _, _ => false

/-- JS `Math.max 0 (Math.min 1 _)` at the rational level (`NaN` passes
through, exactly as in JS where `min`/`max` return `NaN` on `NaN` input). -/
def clamp01q (a : JSQ) : JSQ := a.map fun x => max 0 (min 1 x)

/-! ## The color regular expressions of `colorUtils.ts`

Each JS regex is compiled to a leftmost-match scanner.  In the `oklch` and
`hsl` patterns the digit class `[\d.]` is disjoint from every character the
pattern allows immediately after a run (`%`, whitespace, `,`, `/`, `)`), so
the greedy runs never have to backtrack and maximal munch is exact.  The
`rgb` pattern's separators `\s*,?\s*` can match the empty string, so there
the backtracking over run splits is reproduced explicitly. -/

def isDigitDot (c : Char) : Bool := c.isDigit || c == '.'

def isDigitDotPct (c : Char) : Bool := c.isDigit || c == '.' || c == '%'

/-- Captures of a color-function regex: the three numeric components and the
optional alpha capture (which may include a trailing `%`). -/
abbrev ColorCaps := String × String × String × Option String

/-- Tail of `oklch\(\s*([\d.]+)%?\s+([\d.]+)\s+([\d.]+)\s*(?:\/\s*([\d.]+%?))?\s*\)`
after the literal `oklch(`. -/
def oklchTail (cs0 : List Char) : Option ColorCaps :=
  let cs := cs0.dropWhile jsSpace
  let d1 := cs.takeWhile isDigitDot
  let cs := cs.dropWhile isDigitDot
  if d1.isEmpty then none else
  let cs := match cs with | '%' :: r => r | r => r
  if (cs.takeWhile jsSpace).isEmpty then none else
  let cs := cs.dropWhile jsSpace
  let d2 := cs.takeWhile isDigitDot
  let cs := cs.dropWhile isDigitDot
  if d2.isEmpty then none else
  if (cs.takeWhile jsSpace).isEmpty then none else
  let cs := cs.dropWhile jsSpace
  let d3 := cs.takeWhile isDigitDot
  let cs := cs.dropWhile isDigitDot
  if d3.isEmpty then none else
  let cs := cs.dropWhile jsSpace
  match cs with
  | '/' :: r =>
    let r := r.dropWhile jsSpace
    let d4 := r.takeWhile isDigitDot
    let r := r.dropWhile isDigitDot
    if d4.isEmpty then none else
    let pr := match r with
      | '%' :: r2 => (d4 ++ ['%'], r2)
      | r2 => (d4, r2)
    match pr.2.dropWhile jsSpace with
    | ')' :: _ => some (d1.asString, d2.asString, d3.asString, some pr.1.asString)
    | _ => none
  | ')' :: _ => some (d1.asString, d2.asString, d3.asString, none)
  | _ => none

/-- Leftmost match of the `oklch(...)` regex anywhere in the input, as
`String.prototype.match` does. -/
def oklchFind : List Char → Option ColorCaps
  | [] => none
  | c :: cs =>
    (match stripLit "oklch(".data (c :: cs) with
     | some r => oklchTail r
     | none => none) <|> oklchFind cs

/-- The separator `\s*[,\s]\s*` (followed in the pattern by a digit): a
whitespace run optionally containing one comma; fails when it would be
empty. -/
def hslSep (cs : List Char) : Option (List Char) :=
  let sp := cs.takeWhile jsSpace
  let rest := cs.dropWhile jsSpace
  match rest with
  | ',' :: r => some (r.dropWhile jsSpace)
  | _ => if sp.isEmpty then none else some rest

/-- Tail of
`hsla?\(\s*([\d.]+)\s*[,\s]\s*([\d.]+)%?\s*[,\s]\s*([\d.]+)%?\s*(?:[,/]\s*([\d.]+%?))?\s*\)`
after `hsl(`/`hsla(`. -/
def hslTail (cs0 : List Char) : Option ColorCaps :=
  let cs := cs0.dropWhile jsSpace
  let d1 := cs.takeWhile isDigitDot
  let cs := cs.dropWhile isDigitDot
  if d1.isEmpty then none else
  match hslSep cs with
  | none => none
  | some cs =>
    let d2 := cs.takeWhile isDigitDot
    let cs := cs.dropWhile isDigitDot
    if d2.isEmpty then none else
    let cs := match cs with | '%' :: r => r | r => r
    match hslSep cs with
    | none => none
    | some cs =>
      let d3 := cs.takeWhile isDigitDot
      let cs := cs.dropWhile isDigitDot
      if d3.isEmpty then none else
      let cs := match cs with | '%' :: r => r | r => r
      let cs := cs.dropWhile jsSpace
      match cs with
      | ',' :: r | '/' :: r =>
        let r := r.dropWhile jsSpace
        let d4 := r.takeWhile isDigitDot
        let r := r.dropWhile isDigitDot
        if d4.isEmpty then none else
        let pr := match r with
          | '%' :: r2 => (d4 ++ ['%'], r2)
          | r2 => (d4, r2)
        match pr.2.dropWhile jsSpace with
        | ')' :: _ => some (d1.asString, d2.asString, d3.asString, some pr.1.asString)
        | _ => none
      | ')' :: _ => some (d1.asString, d2.asString, d3.asString, none)
      | _ => none

/-- Leftmost match of the `hsl`/`hsla` regex. -/
def hslFind : List Char → Option ColorCaps
  | [] => none
  | c :: cs =>
    (match stripLit "hsl".data (c :: cs) with
     | some ('a' :: '(' :: r) => hslTail r
     | some ('(' :: r) => hslTail r
     | _ => none) <|> hslFind cs

/-- The `rgb` separator `\s*,?\s*` (always succeeds, possibly empty). -/
def rgbSep (cs : List Char) : List Char :=
  let r := cs.dropWhile jsSpace
  match r with
  | ',' :: r2 => r2.dropWhile jsSpace
  | _ => r

/-- End of the `rgb` pattern after the third capture:
`\s*(?:[,/]\s*([\d.%]+))?\s*\)`. -/
def rgbFinish (d1 d2 d3 : List Char) (cs : List Char) : Option ColorCaps :=
  let r := cs.dropWhile jsSpace
  match r with
  | ',' :: r2 | '/' :: r2 =>
    let r3 := r2.dropWhile jsSpace
    let run := r3.takeWhile isDigitDotPct
    if run.isEmpty then none else
    match (r3.dropWhile isDigitDotPct).dropWhile jsSpace with
    | ')' :: _ => some (d1.asString, d2.asString, d3.asString, some run.asString)
    | _ => none
  | ')' :: _ => some (d1.asString, d2.asString, d3.asString, none)
  | _ => none

/-- Third capture of the `rgb` pattern (no backtracking needed: nothing after
it can match a digit or dot). -/
def rgbThird (d1 d2 : List Char) (cs : List Char) : Option ColorCaps :=
  let run := cs.takeWhile isDigitDot
  if run.isEmpty then none
  else rgbFinish d1 d2 run (cs.dropWhile isDigitDot)

/-- Try the splits of a greedy `[\d.]+` run from longest to shortest, exactly
as the regex backtracker does. -/
def tryRunSplits (k : Nat) (run rest : List Char)
    (f : List Char → List Char → Option ColorCaps) : Option ColorCaps :=
  match k with
  | 0 => none
  | j + 1 => f (run.take (j + 1)) (run.drop (j + 1) ++ rest) <|> tryRunSplits j run rest f

/-- Second capture of the `rgb` pattern, with backtracking. -/
def rgbSecond (d1 : List Char) (cs : List Char) : Option ColorCaps :=
  let run := cs.takeWhile isDigitDot
  tryRunSplits run.length run (cs.dropWhile isDigitDot)
    (fun d2 rest => rgbThird d1 d2 (rgbSep rest))

/-- Tail of `rgba?\(\s*([\d.]+)\s*,?\s*([\d.]+)\s*,?\s*([\d.]+)\s*(?:[,/]\s*([\d.%]+))?\s*\)`
after `rgb(`/`rgba(`. -/
def rgbTail (cs0 : List Char) : Option ColorCaps :=
  let cs := cs0.dropWhile jsSpace
  let run := cs.takeWhile isDigitDot
  tryRunSplits run.length run (cs.dropWhile isDigitDot)
    (fun d1 rest => rgbSecond d1 (rgbSep rest))

/-- Leftmost match of the `rgb`/`rgba` regex. -/
def rgbFind : List Char → Option ColorCaps
  | [] => none
  | c :: cs =>
    (match stripLit "rgb".data (c :: cs) with
     | some ('a' :: '(' :: r) => rgbTail r
     | some ('(' :: r) => rgbTail r
     | _ => none) <|> rgbFind cs

/-! ## Color conversions (`colorUtils.ts`) -/

/-- A canonical Figma color with rational channels (the `hsl`, `hex` and
`rgb` conversions involve only rational arithmetic, so they are modelled
exactly over `ℚ`); `none` = `NaN`. -/
structure FigmaColorQ where
  r : JSQ
  g : JSQ
  b : JSQ
  a : JSQ
deriving DecidableEq, Repr

/-- The canonical Figma color of the source (`FigmaColor` in
`colorUtils.ts`): four possibly-`NaN` real channels. -/
structure FigmaColor where
  r : JSR
  g : JSR
  b : JSR
  a : JSR

/-- Cast a rational color into the real-valued canonical color. -/
noncomputable def FigmaColorQ.toColor (c : FigmaColorQ) : FigmaColor :=
  ⟨c.r.map Rat.cast, c.g.map Rat.cast, c.b.map Rat.cast, c.a.map Rat.cast⟩

/-- `clamp01` of the source, on real JS numbers (`Math.min`/`Math.max`
return `NaN` on `NaN` input, so `NaN` passes through). -/
noncomputable def clamp01 (n : JSR) : JSR := n.map fun x => max 0 (min 1 x)

/-- `linearToSrgb` (source lines 42–45); `Math.pow` on the positive base of
the second branch is real exponentiation, and `NaN` propagates. -/
noncomputable def linearToSrgb (c : JSR) : JSR :=
  c.map fun x => if x ≤ 0.0031308 then 12.92 * x else 1.055 * x ^ ((1 : ℝ) / 2.4) - 0.055

/-- `oklchToRgba` (source lines 15–40).  A `NaN` among `L`, `C`, `H`
reaches all three channels (each channel depends on all three inputs and
`NaN` propagates through `cos`, `sin`, `pow` and arithmetic); alpha is
passed through untouched. -/
noncomputable def oklchToRgba (L C H alpha : JSR) : FigmaColor :=
  match L, C, H with
  | some L, some C, some H =>
    let hRad := H * Real.pi / 180
    let a1 := C * Real.cos hRad
    let b1 := C * Real.sin hRad
    let l1 := L + 0.3963377774 * a1 + 0.2158037573 * b1
    let m1 := L - 0.1055613458 * a1 - 0.0638541728 * b1
    let s1 := L - 0.0894841775 * a1 - 1.291485548 * b1
    let l := l1 * l1 * l1
    let m := m1 * m1 * m1
    let s := s1 * s1 * s1
    let r := 4.0767416621 * l - 3.3077115913 * m + 0.2309699292 * s
    let g := -1.2684380046 * l + 2.6097574011 * m - 0.3413193965 * s
    let b := -0.0041960863 * l - 0.7034186147 * m + 1.707614701 * s
    { r := clamp01 (linearToSrgb (some r))
      g := clamp01 (linearToSrgb (some g))
      b := clamp01 (linearToSrgb (some b))
      a := alpha }
  | _, _, _ => { r := none, g := none, b := none, a := alpha }

/-- `hslToRgba` (source lines 50–71), exact over `ℚ`.  With a `NaN` hue all
the range tests are false and the final `else` branch is taken, exactly as
in JS. -/
def hslToRgba (h s l alpha : JSQ) : FigmaColorQ :=
  let s := qDiv s (some 100)
  let l := qDiv l (some 100)
  let c := qMul (qSub (some 1) (qAbs (qSub (qMul (some 2) l) (some 1)))) s
  let x := qMul c (qSub (some 1) (qAbs (qSub (qMod (qDiv h (some 60)) (some 2)) (some 1))))
  let m := qSub l (qDiv c (some 2))
  let rgb :=
    if qLt h (some 60) then (c, x, (some 0 : JSQ))
    else if qLt h (some 120) then (x, c, some 0)
    else if qLt h (some 180) then ((some 0 : JSQ), c, x)
    else if qLt h (some 240) then ((some 0 : JSQ), x, c)
    else if qLt h (some 300) then (x, (some 0 : JSQ), c)
    else (c, (some 0 : JSQ), x)
  { r := clamp01q (qAdd rgb.1 m)
    g := clamp01q (qAdd rgb.2.1 m)
    b := clamp01q (qAdd rgb.2.2 m)
    a := alpha }

/-- The 3→6 digit-duplication step of `hexToRgba`. -/
def hexExpand3 (d : List Char) : List Char :=
  if d.length = 3 then
    match d with
    | [c0, c1, c2] => [c0, c0, c1, c1, c2, c2]
    | l => l
  else d

/-- The 4→8 digit-duplication step of `hexToRgba`. -/
def hexExpand4 (d : List Char) : List Char :=
  if d.length = 4 then
    match d with
    | [c0, c1, c2, c3] => [c0, c0, c1, c1, c2, c2, c3, c3]
    | l => l
  else d

/-- The two sequential digit-duplication `if`s of `hexToRgba` (after a 3→6
expansion the second cannot fire). -/
def hexExpand (d0 : List Char) : List Char := hexExpand4 (hexExpand3 d0)

/-- `hexToRgba` (source lines 76–92): strip the first `#`, expand the 3- and
4-digit forms by digit duplication, then read two-character slices with
`parseInt(_, 16)` (`none` = `NaN` on non-hex content). -/
def hexToRgba (hex : String) : FigmaColorQ :=
  let d := hexExpand (jsReplaceFirst hex "#" "").data
  let hx : String := ⟨d⟩
  { r := (jsParseIntHex (jsSlice hx 0 2)).map fun n => (n : ℚ) / 255
    g := (jsParseIntHex (jsSlice hx 2 4)).map fun n => (n : ℚ) / 255
    b := (jsParseIntHex (jsSlice hx 4 6)).map fun n => (n : ℚ) / 255
    a := if d.length = 8 then (jsParseIntHex (jsSlice hx 6 8)).map fun n => (n : ℚ) / 255
         else some 1 }

/-- `rgbStringToRgba` (source lines 97–111): regex match, channels divided
by 255, optional percentage alpha, and a `clamp01` on every channel. -/
def rgbStringToRgba (str : String) : Option FigmaColorQ :=
  match rgbFind str.data with
  | none => none
  | some (m1, m2, m3, m4) =>
    let r := qDiv (jsParseFloat m1) (some 255)
    let g := qDiv (jsParseFloat m2) (some 255)
    let b := qDiv (jsParseFloat m3) (some 255)
    let a : JSQ :=
      match m4 with
      | some cap => if jsEndsWith cap "%" then qDiv (jsParseFloat cap) (some 100)
                    else jsParseFloat cap
      | none => some 1
    some { r := clamp01q r, g := clamp01q g, b := clamp01q b, a := clamp01q a }

/-- The minimal named-color table of `parseColorValue`: the three **own**
properties of the JS object literal.  The literal also inherits every
`Object.prototype` member; those prototype-chain hits are modelled by
`protoKeys` and `parseColorValueJS` below. -/
def namedColors : List (String × String) :=
  [("black", "#000000"), ("white", "#ffffff"), ("transparent", "#00000000")]

/-- The inherited `Object.prototype` property names reachable through
`named[v]`: the lookup key has been lower-cased, and these are the only two
`Object.prototype` member names written entirely in lower case (every other
one, such as `toString` or `valueOf`, contains an upper-case letter).  Both
yield a truthy non-string value (`Object.prototype.constructor` is a
function, `__proto__` resolves to `Object.prototype`). -/
def protoKeys : List String := ["constructor", "__proto__"]

/-- `parseColorValue` (source lines 119–177): normalize, then try the
`oklch`, `hsl`, `rgb`, `#hex` and named branches in order.  The named
branch here performs the own-property lookup only: the two executions in
which `named[v]` hits an inherited `Object.prototype` member — and the JS
code consequently throws inside `hexToRgba` — are mapped to `none`.  The
faithful model distinguishing that throwing outcome is `parseColorValueJS`
below; this projection is what the non-error-path claims consume. -/
noncomputable def parseColorValue (value : String) : Option FigmaColor :=
  let v := jsToLower (jsTrim value)
  match oklchFind v.data with
  | some (m1, m2, m3, m4) =>
    let L0 := jsParseFloat m1
    let L := if qLt (some 1) L0 then qDiv L0 (some 100) else L0
    let C := jsParseFloat m2
    let H := jsParseFloat m3
    let alpha : JSQ :=
      match m4 with
      | some cap => if jsEndsWith cap "%" then qDiv (jsParseFloat cap) (some 100)
                    else jsParseFloat cap
      | none => some 1
    some (oklchToRgba (L.map Rat.cast) (C.map Rat.cast) (H.map Rat.cast) (alpha.map Rat.cast))
  | none =>
  match hslFind v.data with
  | some (m1, m2, m3, m4) =>
    let h := jsParseFloat m1
    let s := jsParseFloat m2
    let l := jsParseFloat m3
    let a : JSQ :=
      match m4 with
      | some cap => if jsEndsWith cap "%" then qDiv (jsParseFloat cap) (some 100)
                    else jsParseFloat cap
      | none => some 1
    some (hslToRgba h s l a).toColor
  | none =>
  if jsStartsWith v "rgb" then (rgbStringToRgba v).map FigmaColorQ.toColor
  else if jsStartsWith v "#" then some (hexToRgba v).toColor
  else
    match namedColors.lookup v with
    | some hx => some (hexToRgba hx).toColor
    | none => none

/-- Observable outcome of a `parseColorValue` call: a returned color, a
returned `null`, or the uncaught `TypeError` raised inside `hexToRgba`
when the named-branch lookup `named[v]` produced a truthy non-string
inherited value (so `hex.replace` does not exist on it). -/
inductive ColorOutcome where
  | ok (c : FigmaColor)
  | null
  | typeError

/-- `parseColorValue` (source lines 119–177) with full JS object-lookup
semantics in the named branch: `named[v]` consults the prototype chain, so
on the two reachable inherited keys the `if (named[v])` test passes with a
non-string value and the `hexToRgba` call throws a `TypeError`.
`parseColorValue` above is the projection of this function onto its
non-throwing executions. -/
noncomputable def parseColorValueJS (value : String) : ColorOutcome :=
  let v := jsToLower (jsTrim value)
  match oklchFind v.data with
  | some (m1, m2, m3, m4) =>
    let L0 := jsParseFloat m1
    let L := if qLt (some 1) L0 then qDiv L0 (some 100) else L0
    let C := jsParseFloat m2
    let H := jsParseFloat m3
    let alpha : JSQ :=
      match m4 with
      | some cap => if jsEndsWith cap "%" then qDiv (jsParseFloat cap) (some 100)
                    else jsParseFloat cap
      | none => some 1
    ColorOutcome.ok
      (oklchToRgba (L.map Rat.cast) (C.map Rat.cast) (H.map Rat.cast) (alpha.map Rat.cast))
  | none =>
  match hslFind v.data with
  | some (m1, m2, m3, m4) =>
    let h := jsParseFloat m1
    let s := jsParseFloat m2
    let l := jsParseFloat m3
    let a : JSQ :=
      match m4 with
      | some cap => if jsEndsWith cap "%" then qDiv (jsParseFloat cap) (some 100)
                    else jsParseFloat cap
      | none => some 1
    ColorOutcome.ok (hslToRgba h s l a).toColor
  | none =>
  if jsStartsWith v "rgb" then
    match rgbStringToRgba v with
    | some c => ColorOutcome.ok c.toColor
    | none => ColorOutcome.null
  else if jsStartsWith v "#" then ColorOutcome.ok (hexToRgba v).toColor
  else
    match namedColors.lookup v with
    | some hx => ColorOutcome.ok (hexToRgba hx).toColor
    | none => if v ∈ protoKeys then ColorOutcome.typeError else ColorOutcome.null

/-- `remToPx` (source lines 182–184). -/
def remToPx (rem : ℚ) : ℚ := rem * 16

/-- `parseDimension` (source lines 187–201): the anchored regex
`^(-?[\d.]+)(rem|px|em)?$` on the trimmed value (digit run and unit use
disjoint alphabets, so the match is deterministic), then unit conversion.
`some none` models a successful match whose numeral is `NaN` (e.g. `"."`). -/
def parseDimension (value : String) : Option JSQ :=
  let t := trimL value.data
  let sr : Bool × List Char := match t with
    | '-' :: r => (true, r)
    | r => (false, r)
  let core := sr.2.takeWhile isDigitDot
  let unit := sr.2.dropWhile isDigitDot
  if core.isEmpty then none
  else if unit = [] || unit = "rem".data || unit = "px".data || unit = "em".data then
    let n := jsParseFloat ⟨(if sr.1 then ['-'] else []) ++ core⟩
    if unit = "rem".data || unit = "em".data then some (n.map remToPx) else some n
  else none

/-! ## Decimal rendering (JS `String(number)` for the terminating decimals
arising from parsed CSS numerals) -/

/-- Least `k ≤ 40` with `den ∣ 10^k` (every rational arising here is
10-adic, so such a `k` exists and the fallback is never reached). -/
def decDigits (den : ℕ) : ℕ :=
  ((List.range 41).find? (fun k => 10 ^ k % den = 0)).getD 41

/-- Decimal rendering of a terminating rational, as JS `String(n)` renders
the short decimals arising here; `k` is minimal for the reduced fraction,
so no trailing zeros appear. -/
def jsRatToString (q : ℚ) : String :=
  let sgn := if q < 0 then "-" else ""
  let qa : ℚ := |q|
  let k := decDigits qa.den
  let scaled : ℕ := qa.num.toNat * 10 ^ k / qa.den
  if k = 0 then sgn ++ Nat.repr scaled
  else
    let ds := (Nat.repr scaled).data
    let padded := List.replicate (k + 1 - ds.length) '0' ++ ds
    let n := padded.length
    sgn ++ (⟨padded.take (n - k)⟩ : String) ++ "." ++ (⟨padded.drop (n - k)⟩ : String)

/-- JS string coercion of a possibly-`NaN` number. -/
def jsNumToStr (v : JSQ) : String :=
  match v with
  | none => "NaN"
  | some q => jsRatToString q

/-! ## Data model of the parsing engine (`parser.ts`) -/

structure CSSVariable where
  name : String
  rawValue : String
deriving DecidableEq

structure ParsedColor where
  path : List String
  figmaColor : FigmaColor
  rawValue : String

structure ParsedFloat where
  path : List String
  value : JSQ
  rawValue : String
deriving DecidableEq

inductive ShadowType where
  | dropShadow
  | innerShadow
deriving DecidableEq

structure ShadowLayer where
  x : ℚ
  y : ℚ
  blur : ℚ
  spread : ℚ
  color : FigmaColor
  type : ShadowType

structure ParsedShadow where
  name : String
  shadows : List ShadowLayer
  rawValue : String

structure ParsedTypography where
  name : String
  fontSize : JSQ
  lineHeight : Option JSQ
  letterSpacing : Option JSQ
  fontWeight : Option ℚ
  rawValue : String
deriving DecidableEq

structure ParsedFont where
  name : String
  family : String
  rawValue : String
deriving DecidableEq

structure ParsedTokenSet where
  colors : List ParsedColor
  spacing : List ParsedFloat
  radius : List ParsedFloat
  shadows : List ParsedShadow
  blur : List ParsedFloat
  backdropBlur : List ParsedFloat
  typography : List ParsedTypography
  opacity : List ParsedFloat
  fonts : List ParsedFont
  breakpoints : List ParsedFloat
  containers : List ParsedFloat
  fontWeights : List ParsedFloat
  tracking : List ParsedFloat
  leading : List ParsedFloat
  borderWidth : List ParsedFloat
  maxWidth : List ParsedFloat
  skew : List ParsedFloat

/-- JS object mapping custom-property names to raw values; assignment
overwrites, so later bindings shadow earlier ones. -/
structure ThemeTokens where
  light : String → Option String
  dark : String → Option String

/-! ## CSS variable extraction (`extractCSSVariables`, `parseRootAndDark`) -/

/-- JS `\w` plus the dash, the character class of the name pattern. -/
def isWordDash (c : Char) : Bool :=
  c.isAlpha || c.isDigit || c == '_' || c == '-'

/-- One attempted match of `(--[\w-]+)\s*:\s*([^;]+)` at the current
position.  The interplay of the greedy `\s*` after `:` and the required
`[^;]+` means: the value starts after the whitespace run following `:`,
except that when everything up to the `;` is whitespace the last whitespace
character itself becomes the value.  Returns the two captures and the
remainder from which the global `exec` resumes. -/
def cssVarAt (cs : List Char) : Option ((String × String) × List Char) :=
  match cs with
  | '-' :: '-' :: r =>
    let run := r.takeWhile isWordDash
    if run.isEmpty then none else
    let r2 := (r.dropWhile isWordDash).dropWhile jsSpace
    match r2 with
    | ':' :: r3 =>
      let j := (r3.takeWhile jsSpace).length
      let tpart := r3.takeWhile (fun c => c != ';')
      let m := tpart.length
      if m = 0 then none
      else
        some ((('-' :: '-' :: run).asString, (tpart.drop (min j (m - 1))).asString),
          r3.dropWhile (fun c => c != ';'))
    | _ => none
  | _ => none

/-- Global scan of the declaration regex, advancing one character on
failure, resuming after the match on success (fuelled by the input length,
which each step strictly decreases). -/
def extractVarsGo : ℕ → List Char → List (String × String)
  | 0, _ => []
  | _, [] => []
  | fuel + 1, c :: cs =>
    match cssVarAt (c :: cs) with
    | some (pr, rest) => pr :: extractVarsGo fuel rest
    | none => extractVarsGo fuel cs

/-- `extractCSSVariables` (parser lines 89–101): all `--name: value`
matches, the name trimmed and the value trimmed with whitespace runs
collapsed to single spaces. -/
def extractCSSVariables (css : String) : List CSSVariable :=
  (extractVarsGo css.data.length css.data).map fun pr =>
    { name := jsTrim pr.1, rawValue := ⟨collapseWsL (trimL pr.2.data)⟩ }

/-- Leftmost match of `pat\s*\{([\s\S]*?)\}`: the literal, optional
whitespace, an opening brace, then the (lazy) shortest span up to a closing
brace; a position with no closing brace afterwards fails and the scan
continues. -/
def blockFind (pat : List Char) : List Char → Option (List Char)
  | [] => none
  | c :: cs =>
    (match stripLit pat (c :: cs) with
     | some r =>
       match r.dropWhile jsSpace with
       | '\x7b' :: body =>
         if body.dropWhile (fun c2 => c2 != '\x7d') = [] then none
         else some (body.takeWhile (fun c2 => c2 != '\x7d'))
       | _ => none
     | none => none) <|> blockFind pat cs

/-- JS object-map construction: later assignments overwrite earlier. -/
def recordOfVars (vars : List CSSVariable) : String → Option String :=
  vars.foldl (fun acc v => fun k => if k = v.name then some v.rawValue else acc k)
    (fun _ => none)

/-- `parseRootAndDark` (parser lines 118–141): variables of the first
`:root {...}` and the first `.dark {...}` block, as light/dark maps. -/
def parseRootAndDark (css : String) : ThemeTokens :=
  let lightVars := match blockFind ":root".data css.data with
    | some body => extractCSSVariables ⟨body⟩
    | none => []
  let darkVars := match blockFind ".dark".data css.data with
    | some body => extractCSSVariables ⟨body⟩
    | none => []
  { light := recordOfVars lightVars, dark := recordOfVars darkVars }

/-! ## Shadow parsing -/

/-- Depth update of the loop of `splitShadowParts`: increment on an opening
parenthesis, decrement on a closing one (a character that is both never
occurs; the code applies both tests in sequence). -/
def shadowDepthStep (c : Char) (depth : ℤ) : ℤ :=
  let depth1 := if c = '(' then depth + 1 else depth
  if c = ')' then depth1 - 1 else depth1

/-- `splitShadowParts` (parser lines 465–483): the accumulator loop with a
parenthesis-depth counter; a comma splits only at depth 0, and the final
accumulated piece is kept only when its trim is nonempty. -/
def splitShadowGo : List Char → ℤ → List Char → List String
  | [], _, current =>
    if (trimL current.reverse).isEmpty then [] else [current.reverse.asString]
  | c :: cs, depth, current =>
    if c = ',' && shadowDepthStep c depth = 0 then
      current.reverse.asString :: splitShadowGo cs (shadowDepthStep c depth) []
    else splitShadowGo cs (shadowDepthStep c depth) (c :: current)

def splitShadowParts (value : String) : List String := splitShadowGo value.data 0 []

/-- Spec-modelled (claim C6): the spec describes the shadow-list splitter as
splitting on top-level commas using a parenthesis-depth counter, where only
a comma at depth 0 is a separator.  This definition follows those words
directly: it returns every piece of the input between consecutive depth-0
commas, including a trailing empty or blank piece.  It is compared with the
code-derived `splitShadowParts` in the C6 theorem. -/
def depth0SplitGo : List Char → ℤ → List Char → List String
  | [], _, current => [current.reverse.asString]
  | c :: cs, depth, current =>
    if c = ',' && shadowDepthStep c depth = 0 then
      current.reverse.asString :: depth0SplitGo cs (shadowDepthStep c depth) []
    else depth0SplitGo cs (shadowDepthStep c depth) (c :: current)

/-- Spec-modelled (claim C6): the pieces of a string between consecutive
commas at parenthesis depth 0. -/
def depth0Split (value : String) : List String := depth0SplitGo value.data 0 []

/-- End of the shadow-color pattern after `fn` and the opening parenthesis:
`[^)]+\)`; returns the full matched substring. -/
def colorFnFinish (pre : List Char) (r : List Char) : Option (List Char) :=
  let content := r.takeWhile (fun c => c != ')')
  if content.isEmpty then none else
  match r.dropWhile (fun c => c != ')') with
  | ')' :: _ => some (pre ++ '(' :: (content ++ [')']))
  | _ => none

/-- One attempted match of `((?:rgb|oklch|hsl)a?\([^)]+\))` at the current
position (alternation order as in the pattern). -/
def colorFnAt (cs : List Char) : Option (List Char) :=
  (match stripLit "rgb".data cs with
   | some ('a' :: '(' :: r) => colorFnFinish "rgba".data r
   | some ('(' :: r) => colorFnFinish "rgb".data r
   | _ => none) <|>
  (match stripLit "oklch".data cs with
   | some ('a' :: '(' :: r) => colorFnFinish "oklcha".data r
   | some ('(' :: r) => colorFnFinish "oklch".data r
   | _ => none) <|>
  (match stripLit "hsl".data cs with
   | some ('a' :: '(' :: r) => colorFnFinish "hsla".data r
   | some ('(' :: r) => colorFnFinish "hsl".data r
   | _ => none)

/-- Leftmost occurrence of a color-function token. -/
def colorFnFind : List Char → Option (List Char)
  | [] => none
  | c :: cs => colorFnAt (c :: cs) <|> colorFnFind cs

/-- `trimmed.replace(/^inset\s+/, "")`: anchored, requires at least one
whitespace character after the keyword. -/
def stripInset (s : String) : String :=
  match stripLit "inset".data s.data with
  | some r => if (r.takeWhile jsSpace).isEmpty then s else ⟨r.dropWhile jsSpace⟩
  | none => s

/-- `parseDimension(n) || 0`: both `null` and `NaN` (and `0` itself) give
`0`. -/
def jsOrZero (d : Option JSQ) : ℚ :=
  match d with
  | some (some q) => q
  | _ => 0

/-- The numeric whitespace-split fields of a shadow part after the color
token is removed (used by the loop body of `parseShadowValue`). -/
def shadowNums (part : String) : List ℚ :=
  let trimmed := jsTrim part
  let shadow := stripInset trimmed
  let colorStr := match colorFnFind shadow.data with
    | some m => m.asString
    | none => "rgb(0 0 0 / 0.1)"
  let withoutColor := jsTrim (jsReplaceFirst shadow colorStr "")
  (jsSplitWs withoutColor).map fun n => jsOrZero (parseDimension n)

/-- The color string of a shadow part (the first color-function substring,
defaulting to the semi-transparent black literal). -/
def shadowColorStr (part : String) : String :=
  match colorFnFind (stripInset (jsTrim part)).data with
  | some m => m.asString
  | none => "rgb(0 0 0 / 0.1)"

/-- Body of the loop of `parseShadowValue` (parser lines 434–459) for one
comma-split part; `none` models the `continue` on a whitespace-only part. -/
noncomputable def parseShadowLayer (part : String) : Option ShadowLayer :=
  let trimmed := jsTrim part
  if trimmed.data.isEmpty then none else
  let isInset := jsStartsWith trimmed "inset"
  let nums := shadowNums part
  let color := (parseColorValue (shadowColorStr part)).getD
    ⟨some 0, some 0, some 0, some 0.1⟩
  some { x := nums.getD 0 0, y := nums.getD 1 0, blur := nums.getD 2 0,
         spread := nums.getD 3 0, color := color,
         type := if isInset then .innerShadow else .dropShadow }

/-- `parseShadowValue` (parser lines 429–462). -/
noncomputable def parseShadowValue (value : String) : List ShadowLayer :=
  (splitShadowParts value).filterMap parseShadowLayer

/-! ## Helpers of the categorizer -/

/-- The `calc\(\s*([\d.]+)\s*\/\s*([\d.]+)\s*\)` matcher (leftmost). -/
def calcFind : List Char → Option (String × String)
  | [] => none
  | c :: cs =>
    (match stripLit "calc(".data (c :: cs) with
     | some r =>
       let r := r.dropWhile jsSpace
       let d1 := r.takeWhile isDigitDot
       let r := r.dropWhile isDigitDot
       if d1.isEmpty then none else
       match r.dropWhile jsSpace with
       | '/' :: r2 =>
         let r2 := r2.dropWhile jsSpace
         let d2 := r2.takeWhile isDigitDot
         let r2 := r2.dropWhile isDigitDot
         if d2.isEmpty then none else
         match r2.dropWhile jsSpace with
         | ')' :: _ => some (d1.asString, d2.asString)
         | _ => none
       | _ => none
     | none => none) <|> calcFind cs

/-- `evaluateCalc` (parser lines 488–497): the ratio form of `calc`, else a
plain numeric parse; the outer `none` is JS `undefined`, `some none` is a
`NaN` number (a matched `calc` whose denominator parses to `NaN` passes the
`!== 0` test and divides to `NaN`). -/
def evaluateCalc (value : String) : Option JSQ :=
  match calcFind value.data with
  | some pr =>
    let num := jsParseFloat pr.1
    let den := jsParseFloat pr.2
    if den ≠ some 0 then some (qDiv num den)
    else
      match jsParseFloat value with
      | none => none
      | some q => some (some q)
  | none =>
    match jsParseFloat value with
    | none => none
    | some q => some (some q)

/-- The fixed multiplier steps of the Tailwind spacing scale. -/
def spacingSteps : List ℚ :=
  [0.5, 1, 1.5, 2, 2.5, 3, 3.5, 4, 5, 6, 7, 8, 9, 10,
   11, 12, 14, 16, 20, 24, 28, 32, 36, 40, 44, 48, 52, 56,
   60, 64, 72, 80, 96]

/-- `String(step).replace(/\./g, "_")`. -/
def spacingStepName (step : ℚ) : String :=
  ⟨(jsRatToString step).data.map fun c => if c = '.' then '_' else c⟩

/-- `generateSpacingScale` (parser lines 504–520). -/
def generateSpacingScale (basePx : JSQ) : List ParsedFloat :=
  spacingSteps.map fun step =>
    { path := [spacingStepName step]
      value := qMul (some step) basePx
      rawValue := jsNumToStr (qMul (some step) basePx) ++ "px" }

/-! ## The categorizer (`categorizeTokens`, parser lines 149–421) -/

/-- Strip a leading `--` (the anchored regex `^--` of `name.replace`). -/
def stripDashes (s : String) : String :=
  match s.data with
  | '-' :: '-' :: r => ⟨r⟩
  | _ => s

/-- Strip the anchored `^max-w(idth)?-` of the max-width branch (greedy, so
the long form wins when both apply). -/
def stripMaxW (name : String) : String :=
  if jsStartsWith name "max-width-" then jsReplaceFirst name "max-width-" ""
  else if jsStartsWith name "max-w-" then jsReplaceFirst name "max-w-" ""
  else name

/-- First comma-separated segment of the value, trimmed, with all single
and double quote characters removed (the font-family extraction). -/
def fontFamilyOf (raw : String) : String :=
  ⟨(jsTrim ((jsSplitOnChar ',' raw).headD "")).data.filter
    fun c => !(c = '\'' || c = '"')⟩

/-- Append one entry to a single family of the token set (the `push` of the
source, one helper per family to keep terms compact). -/
def pushColor (r : ParsedTokenSet) (e : ParsedColor) : ParsedTokenSet :=
  { r with colors := r.colors ++ [e] }

def pushSpacing (r : ParsedTokenSet) (e : ParsedFloat) : ParsedTokenSet :=
  { r with spacing := r.spacing ++ [e] }

def pushRadius (r : ParsedTokenSet) (e : ParsedFloat) : ParsedTokenSet :=
  { r with radius := r.radius ++ [e] }

def pushShadow (r : ParsedTokenSet) (e : ParsedShadow) : ParsedTokenSet :=
  { r with shadows := r.shadows ++ [e] }

def pushBlur (r : ParsedTokenSet) (e : ParsedFloat) : ParsedTokenSet :=
  { r with blur := r.blur ++ [e] }

def pushBackdropBlur (r : ParsedTokenSet) (e : ParsedFloat) : ParsedTokenSet :=
  { r with backdropBlur := r.backdropBlur ++ [e] }

def pushTypography (r : ParsedTokenSet) (e : ParsedTypography) : ParsedTokenSet :=
  { r with typography := r.typography ++ [e] }

def pushOpacity (r : ParsedTokenSet) (e : ParsedFloat) : ParsedTokenSet :=
  { r with opacity := r.opacity ++ [e] }

def pushFont (r : ParsedTokenSet) (e : ParsedFont) : ParsedTokenSet :=
  { r with fonts := r.fonts ++ [e] }

def pushBreakpoint (r : ParsedTokenSet) (e : ParsedFloat) : ParsedTokenSet :=
  { r with breakpoints := r.breakpoints ++ [e] }

def pushContainer (r : ParsedTokenSet) (e : ParsedFloat) : ParsedTokenSet :=
  { r with containers := r.containers ++ [e] }

def pushFontWeight (r : ParsedTokenSet) (e : ParsedFloat) : ParsedTokenSet :=
  { r with fontWeights := r.fontWeights ++ [e] }

def pushTracking (r : ParsedTokenSet) (e : ParsedFloat) : ParsedTokenSet :=
  { r with tracking := r.tracking ++ [e] }

def pushLeading (r : ParsedTokenSet) (e : ParsedFloat) : ParsedTokenSet :=
  { r with leading := r.leading ++ [e] }

def pushBorderWidth (r : ParsedTokenSet) (e : ParsedFloat) : ParsedTokenSet :=
  { r with borderWidth := r.borderWidth ++ [e] }

def pushMaxWidth (r : ParsedTokenSet) (e : ParsedFloat) : ParsedTokenSet :=
  { r with maxWidth := r.maxWidth ++ [e] }

def pushSkew (r : ParsedTokenSet) (e : ParsedFloat) : ParsedTokenSet :=
  { r with skew := r.skew ++ [e] }

/-- The `border-width-` and `skew-` tests at the end of the chain (the
`opacity-` branch has no `continue` in the source and falls through to
these; they cannot match an `opacity-` name, so the fall-through only
matters for non-opacity names). -/
def borderSkewStep (name : String) (v : CSSVariable) (result : ParsedTokenSet) :
    ParsedTokenSet :=
  if jsStartsWith name "border-width-" then
    match parseDimension v.rawValue with
    | some dim =>
      pushBorderWidth result ⟨jsSplitOnChar '-' (jsReplaceFirst name "border-width-" ""), dim, v.rawValue⟩
    | none => result
  else if jsStartsWith name "skew-" then
    match jsParseFloat v.rawValue with
    | some val =>
      pushSkew result ⟨jsSplitOnChar '-' (jsReplaceFirst name "skew-" ""), some val, v.rawValue⟩
    | none => result
  else result

/-- The ordered first-match-wins prefix/exact-name rule chain of the
categorizer loop body; `name` is the variable name with the leading `--`
stripped, and `lookup` abstracts the `vars.find` sibling search of the
typography branch (it receives the exact name searched for). -/
noncomputable def categorizeRules (lookup : String → Option CSSVariable)
    (result : ParsedTokenSet) (v : CSSVariable) (name : String) : ParsedTokenSet :=
  if jsStartsWith name "color-" then
    match parseColorValue v.rawValue with
    | some color =>
      pushColor result ⟨jsSplitOnChar '-' (jsReplaceFirst name "color-" ""), color, v.rawValue⟩
    | none => result
  else if name = "spacing" then
    match parseDimension v.rawValue with
    | some dim => pushSpacing result ⟨["base"], dim, v.rawValue⟩
    | none => result
  else if jsStartsWith name "breakpoint-" then
    match parseDimension v.rawValue with
    | some dim =>
      pushBreakpoint result ⟨[jsReplaceFirst name "breakpoint-" ""], dim, v.rawValue⟩
    | none => result
  else if jsStartsWith name "container-" then
    match parseDimension v.rawValue with
    | some dim =>
      pushContainer result ⟨[jsReplaceFirst name "container-" ""], dim, v.rawValue⟩
    | none => result
  else if jsStartsWith name "max-w-" || jsStartsWith name "max-width-" then
    match parseDimension v.rawValue with
    | some dim =>
      pushMaxWidth result ⟨[stripMaxW name], dim, v.rawValue⟩
    | none => result
  else if jsStartsWith name "font-weight-" then
    match jsParseFloat v.rawValue with
    | some val =>
      pushFontWeight result ⟨[jsReplaceFirst name "font-weight-" ""], some val, v.rawValue⟩
    | none => result
  else if jsStartsWith name "tracking-" then
    match parseDimension v.rawValue with
    | some dim =>
      pushTracking result ⟨[jsReplaceFirst name "tracking-" ""], dim, v.rawValue⟩
    | none => result
  else if jsStartsWith name "leading-" then
    match jsParseFloat v.rawValue with
    | some val =>
      pushLeading result ⟨[jsReplaceFirst name "leading-" ""], some val, v.rawValue⟩
    | none => result
  else if jsStartsWith name "radius" then
    let parts := if name = "radius" then ["default"]
      else jsSplitOnChar '-' (jsReplaceFirst name "radius-" "")
    match parseDimension v.rawValue with
    | some dim => pushRadius result ⟨parts, dim, v.rawValue⟩
    | none => result
  else if jsStartsWith name "shadow-" && !jsStartsWith name "shadow-inner" then
    let shadowName := "drop-shadow/" ++ jsReplaceFirst name "shadow-" ""
    let layers := parseShadowValue v.rawValue
    if layers.length > 0 then
      pushShadow result ⟨shadowName, layers, v.rawValue⟩
    else result
  else if jsStartsWith name "inset-shadow-" then
    let shadowName := "inset-shadow/" ++ jsReplaceFirst name "inset-shadow-" ""
    let layers := parseShadowValue v.rawValue
    if layers.length > 0 then
      pushShadow result ⟨shadowName, layers, v.rawValue⟩
    else result
  else if jsStartsWith name "drop-shadow-" then
    let dsName := "drop-shadow/" ++ jsReplaceFirst name "drop-shadow-" ""
    let layers := parseShadowValue v.rawValue
    if layers.length > 0 then
      pushShadow result ⟨dsName, layers, v.rawValue⟩
    else result
  else if jsStartsWith name "text-shadow-" then
    let tsName := "text-shadow/" ++ jsReplaceFirst name "text-shadow-" ""
    let layers := parseShadowValue v.rawValue
    if layers.length > 0 then
      pushShadow result ⟨tsName, layers, v.rawValue⟩
    else result
  else if jsStartsWith name "blur" then
    let parts := if name = "blur" then ["default"]
      else jsSplitOnChar '-' (jsReplaceFirst name "blur-" "")
    match parseDimension v.rawValue with
    | some dim => pushBlur result ⟨parts, dim, v.rawValue⟩
    | none => result
  else if jsStartsWith name "backdrop-blur" then
    let parts := if name = "backdrop-blur" then ["default"]
      else jsSplitOnChar '-' (jsReplaceFirst name "backdrop-blur-" "")
    match parseDimension v.rawValue with
    | some dim =>
      pushBackdropBlur result ⟨parts, dim, v.rawValue⟩
    | none => result
  else if jsStartsWith name "text-" && !jsIncludes name "shadow" then
    if jsEndsWith name "--line-height" || jsEndsWith name "--letter-spacing" ||
        jsEndsWith name "--font-weight" then
      result
    else
      match parseDimension v.rawValue with
      | some dim =>
        let lineHeight : Option JSQ :=
          match lookup ("--" ++ name ++ "--line-height") with
          | some lhVar => evaluateCalc lhVar.rawValue
          | none => none
        let letterSpacing : Option JSQ :=
          match lookup ("--" ++ name ++ "--letter-spacing") with
          | some lsVar => parseDimension lsVar.rawValue
          | none => none
        let fontWeight : Option ℚ :=
          match lookup ("--" ++ name ++ "--font-weight") with
          | some fwVar => jsParseFloat fwVar.rawValue
          | none => none
        pushTypography result ⟨jsReplaceFirst name "text-" "", dim, lineHeight, letterSpacing,
          fontWeight, v.rawValue⟩
      | none => result
  else if jsStartsWith name "font-" && !jsStartsWith name "font-weight-" then
    pushFont result ⟨jsReplaceFirst name "font-" "", fontFamilyOf v.rawValue, v.rawValue⟩
  else if jsStartsWith name "opacity-" then
    let r1 := match jsParseFloat v.rawValue with
      | some val =>
        pushOpacity result ⟨jsSplitOnChar '-' (jsReplaceFirst name "opacity-" ""), some val, v.rawValue⟩
      | none => result
    borderSkewStep name v r1
  else borderSkewStep name v result

/-- One iteration of the categorizer loop: strip the leading `--`, then run
the rule chain. -/
noncomputable def categorizeStepCore (lookup : String → Option CSSVariable)
    (result : ParsedTokenSet) (v : CSSVariable) : ParsedTokenSet :=
  categorizeRules lookup result v (stripDashes v.name)

/-- One categorizer iteration with the sibling lookup performed over the
full variable list with first-match semantics, exactly as in the source. -/
noncomputable def categorizeStep (vars : List CSSVariable) (result : ParsedTokenSet)
    (v : CSSVariable) : ParsedTokenSet :=
  categorizeStepCore (fun key => vars.find? (fun lv => lv.name == key)) result v

/-- The empty token set. -/
def emptyTokenSet : ParsedTokenSet := ⟨[], [], [], [], [], [], [], [], [], [], [], [], [], [], [], [], []⟩

/-- `categorizeTokens` (parser lines 149–421): stream all variables through
the rule chain, then the spacing-scale synthesis post-pass. -/
noncomputable def categorizeTokens (vars : List CSSVariable) : ParsedTokenSet :=
  let result := vars.foldl (categorizeStep vars) emptyTokenSet
  match result.spacing with
  | [e] => { result with spacing := generateSpacingScale e.value }
  | _ => result

/-! # Theorems

## Normalization of `parseColorValue` input (claim C10) -/

theorem jsLowerChar_cases (c : Char) :
    jsLowerChar c = c ∨ jsLowerChar c ∈ (['a', 'b', 'c', 'd', 'e', 'f', 'g', 'h', 'i', 'j',
      'k', 'l', 'm', 'n', 'o', 'p', 'q', 'r', 's', 't', 'u', 'v', 'w', 'x', 'y', 'z'] :
      List Char) := by
  unfold jsLowerChar
  split
  all_goals first
    | (left; rfl)
    | (right; decide)

theorem jsLowerChar_fix_lower :
    ∀ c ∈ (['a', 'b', 'c', 'd', 'e', 'f', 'g', 'h', 'i', 'j', 'k', 'l', 'm', 'n', 'o', 'p',
      'q', 'r', 's', 't', 'u', 'v', 'w', 'x', 'y', 'z'] : List Char), jsLowerChar c = c := by
  decide

theorem jsLowerChar_idem (c : Char) : jsLowerChar (jsLowerChar c) = jsLowerChar c := by
  rcases jsLowerChar_cases c with h | h
  · rw [h]; exact h
  · exact jsLowerChar_fix_lower _ h

theorem jsSpace_jsLowerChar (c : Char) : jsSpace (jsLowerChar c) = jsSpace c := by
  unfold jsLowerChar
  split <;> rfl

theorem dropWhile_dropWhile (p : Char → Bool) (l : List Char) :
    (l.dropWhile p).dropWhile p = l.dropWhile p := by
  induction l with
  | nil => rfl
  | cons c cs ih =>
    by_cases h : p c = true
    · simpa [List.dropWhile, h] using ih
    · simp [List.dropWhile, h]

theorem dropWhile_eq_self_of_head (p : Char → Bool) (l : List Char)
    (h : ∀ a, l.head? = some a → p a = false) : l.dropWhile p = l := by
  cases l with
  | nil => rfl
  | cons c cs => simp [List.dropWhile, h c rfl]

theorem head_not_space_of_dropWhile (p : Char → Bool) (l : List Char) :
    ∀ a, (l.dropWhile p).head? = some a → p a = false := by
  induction l with
  | nil => intro a h; simp at h
  | cons c cs ih =>
    intro a h
    by_cases hc : p c = true
    · exact ih a (by simpa [List.dropWhile, hc] using h)
    · simp [List.dropWhile, hc] at h
      simpa [← h] using hc

theorem trimL_head (l : List Char) :
    ∀ a, (trimL l).head? = some a → jsSpace a = false := by
  intro a ha
  unfold trimL at ha
  set n := l.dropWhile jsSpace with hn
  obtain ⟨r, hr⟩ : (n.reverse.dropWhile jsSpace) <:+ n.reverse := List.dropWhile_suffix _
  have hpre : n = (n.reverse.dropWhile jsSpace).reverse ++ r.reverse := by
    have := congrArg List.reverse hr
    simpa using this.symm
  rcases hcons : (n.reverse.dropWhile jsSpace).reverse with _ | ⟨b, t⟩
  · rw [hcons] at ha; simp at ha
  · rw [hcons] at ha
    simp at ha
    subst ha
    have hhead : n.head? = some b := by rw [hpre, hcons]; rfl
    exact head_not_space_of_dropWhile jsSpace l b hhead

theorem trimL_idem (l : List Char) : trimL (trimL l) = trimL l := by
  have h1 : (trimL l).dropWhile jsSpace = trimL l :=
    dropWhile_eq_self_of_head _ _ (trimL_head l)
  conv_lhs => rw [trimL]
  rw [h1]
  rw [show (trimL l).reverse = (l.dropWhile jsSpace).reverse.dropWhile jsSpace by
    rw [trimL, List.reverse_reverse]]
  rw [dropWhile_dropWhile]
  rfl

theorem trimL_map_lower (l : List Char) :
    trimL (l.map jsLowerChar) = (trimL l).map jsLowerChar := by
  have hpf : (jsSpace ∘ jsLowerChar) = jsSpace := funext jsSpace_jsLowerChar
  unfold trimL
  rw [List.dropWhile_map, hpf, ← List.map_reverse, List.dropWhile_map, hpf,
    ← List.map_reverse]

theorem lowerTrim_idem (s : String) :
    jsToLower (jsTrim (jsToLower (jsTrim s))) = jsToLower (jsTrim s) := by
  have hlist : (trimL ((trimL s.data).map jsLowerChar)).map jsLowerChar
      = (trimL s.data).map jsLowerChar := by
    have hcomp : jsLowerChar ∘ jsLowerChar = jsLowerChar := funext jsLowerChar_idem
    rw [trimL_map_lower, trimL_idem, List.map_map, hcomp]
  exact congrArg String.mk hlist

/-- C10: for every input string `s`, `parseColorValue s` equals
`parseColorValue` of the trimmed, lowercased form of `s`: leading and
trailing whitespace and ASCII letter case never affect the parse result,
because the function first normalizes its input and the normalization is
idempotent. -/
theorem parseColorValue_trim_toLower (s : String) :
    parseColorValue s = parseColorValue (jsToLower (jsTrim s)) := by
  unfold parseColorValue
  rw [lowerTrim_idem]

/-! ## Channel ranges of `parseColorValue` (claim C1) -/

/-- A possibly-`NaN` channel lies in `[0,1]` whenever it is numeric. -/
def inUnit (x : JSR) : Prop := ∀ v : ℝ, x = some v → 0 ≤ v ∧ v ≤ 1

theorem inUnit_none : inUnit none := by intro v h; cases h

theorem inUnit_clamp01 (x : JSR) : inUnit (clamp01 x) := by
  intro v hv
  cases x with
  | none => cases hv
  | some a =>
    simp only [clamp01, Option.map_some', Option.some.injEq] at hv
    subst hv
    refine ⟨le_max_left 0 _, max_le (by norm_num) (min_le_left 1 a)⟩

theorem inUnit_clamp01q_cast (x : JSQ) : inUnit ((clamp01q x).map Rat.cast) := by
  intro v hv
  cases x with
  | none => cases hv
  | some a =>
    simp only [clamp01q, Option.map_some', Option.some.injEq] at hv
    subst hv
    constructor
    · exact_mod_cast le_max_left (0 : ℚ) (min 1 a)
    · exact_mod_cast max_le (by norm_num) (min_le_left (1 : ℚ) a)

theorem oklch_rgb_inUnit (L C H a : JSR) :
    inUnit (oklchToRgba L C H a).r ∧ inUnit (oklchToRgba L C H a).g ∧
      inUnit (oklchToRgba L C H a).b := by
  cases L with
  | none => exact ⟨inUnit_none, inUnit_none, inUnit_none⟩
  | some L =>
    cases C with
    | none => exact ⟨inUnit_none, inUnit_none, inUnit_none⟩
    | some C =>
      cases H with
      | none => exact ⟨inUnit_none, inUnit_none, inUnit_none⟩
      | some H =>
        refine ⟨?_, ?_, ?_⟩ <;> (simp only [oklchToRgba]; exact inUnit_clamp01 _)

theorem hsl_inUnit (h s l a : JSQ) :
    inUnit (hslToRgba h s l a).toColor.r ∧ inUnit (hslToRgba h s l a).toColor.g ∧
      inUnit (hslToRgba h s l a).toColor.b :=
  ⟨inUnit_clamp01q_cast _, inUnit_clamp01q_cast _, inUnit_clamp01q_cast _⟩

theorem hexVal_lt (c : Char) (h : isHexDigit c = true) : hexVal c < 16 := by
  unfold isHexDigit at h
  unfold hexVal
  simp only [Bool.or_eq_true, Bool.and_eq_true, decide_eq_true_eq] at h
  split
  · rename_i h1
    simp only [Bool.and_eq_true, decide_eq_true_eq] at h1
    omega
  · split
    · rename_i h1 h2
      simp only [Bool.and_eq_true, decide_eq_true_eq] at h2
      omega
    · rename_i h1 h2
      simp only [Bool.and_eq_true, decide_eq_true_eq, not_and, not_le] at h1 h2
      omega

theorem hexToNat_aux_lt (l : List Char) (hl : ∀ c ∈ l, isHexDigit c = true) :
    ∀ acc, l.foldl (fun acc c => 16 * acc + hexVal c) acc < (acc + 1) * 16 ^ l.length := by
  induction l with
  | nil => intro acc; simp
  | cons c cs ih =>
    intro acc
    have hc : hexVal c < 16 := hexVal_lt c (hl c (by simp))
    have hcs : ∀ x ∈ cs, isHexDigit x = true := fun x hx => hl x (by simp [hx])
    have h1 := ih hcs (16 * acc + hexVal c)
    have h2 : (16 * acc + hexVal c + 1) * 16 ^ cs.length ≤ (acc + 1) * 16 ^ (c :: cs).length := by
      have : 16 * acc + hexVal c + 1 ≤ (acc + 1) * 16 := by omega
      calc (16 * acc + hexVal c + 1) * 16 ^ cs.length
          ≤ ((acc + 1) * 16) * 16 ^ cs.length := Nat.mul_le_mul_right _ this
        _ = (acc + 1) * 16 ^ (c :: cs).length := by
            simp [List.length_cons, pow_succ]; ring
    exact lt_of_lt_of_le (by simpa [List.foldl] using h1) h2

theorem hexToNat_lt (l : List Char) (hl : ∀ c ∈ l, isHexDigit c = true) :
    hexToNat l < 16 ^ l.length := by
  simpa using hexToNat_aux_lt l hl 0

theorem isHexDigit_not_space (c : Char) (h : isHexDigit c = true) : jsSpace c = false := by
  unfold jsSpace
  simp only [Bool.or_eq_false_iff, decide_eq_false_iff_not]
  repeat' apply And.intro
  all_goals (intro hc; subst hc; exact absurd h (by decide))

theorem isHexDigit_ne (c d : Char) (h : isHexDigit c = true) (hd : isHexDigit d = false) :
    c ≠ d := by
  intro he
  subst he
  rw [h] at hd
  cases hd

theorem takeWhile_eq_self_of_all (p : Char → Bool) (l : List Char)
    (h : ∀ c ∈ l, p c = true) : l.takeWhile p = l := by
  induction l with
  | nil => rfl
  | cons c cs ih =>
    rw [List.takeWhile_cons, h c (by simp)]
    simp [ih fun x hx => h x (by simp [hx])]

theorem hexStrip_of_hex (l : List Char) (h : ∀ c ∈ l, isHexDigit c = true) :
    hexStrip l = l := by
  unfold hexStrip
  split
  · exact absurd (h 'x' (by simp)) (by decide)
  · exact absurd (h 'X' (by simp)) (by decide)
  · rfl

theorem parseIntHexCore_hex (l : List Char) (h : ∀ c ∈ l, isHexDigit c = true) :
    ∀ n, parseIntHexCore l = some n → 0 ≤ n ∧ n < 16 ^ l.length := by
  intro n hc
  unfold parseIntHexCore at hc
  rw [hexStrip_of_hex l h, takeWhile_eq_self_of_all _ _ h] at hc
  by_cases he : l.isEmpty
  · rw [if_pos he] at hc; cases hc
  · rw [if_neg he] at hc
    simp only [Option.some.injEq] at hc
    subst hc
    exact ⟨Int.ofNat_nonneg _, by exact_mod_cast hexToNat_lt l h⟩

theorem jsParseIntHex_hex (s : String) (h : ∀ c ∈ s.data, isHexDigit c = true) :
    ∀ n, jsParseIntHex s = some n → 0 ≤ n ∧ n < 16 ^ s.data.length := by
  intro n hn
  have hds : s.data.dropWhile jsSpace = s.data := by
    refine dropWhile_eq_self_of_head jsSpace s.data ?_
    intro a ha
    rcases hl : s.data with _ | ⟨c, cs⟩
    · rw [hl] at ha; cases ha
    · rw [hl] at ha
      simp at ha
      subst ha
      exact isHexDigit_not_space c (h c (by rw [hl]; simp))
  unfold jsParseIntHex at hn
  rw [hds] at hn
  split at hn
  · rename_i r heq; exact absurd (h '-' (by rw [heq]; simp)) (by decide)
  · rename_i r heq; exact absurd (h '+' (by rw [heq]; simp)) (by decide)
  · exact parseIntHexCore_hex s.data h n hn

theorem hexExpand3_subset (d : List Char) : ∀ c ∈ hexExpand3 d, c ∈ d := by
  intro c hc
  unfold hexExpand3 at hc
  split at hc
  · split at hc
    · simp at hc ⊢; tauto
    · exact hc
  · exact hc

theorem hexExpand4_subset (d : List Char) : ∀ c ∈ hexExpand4 d, c ∈ d := by
  intro c hc
  unfold hexExpand4 at hc
  split at hc
  · split at hc
    · simp at hc ⊢; tauto
    · exact hc
  · exact hc

theorem hexExpand_subset (d : List Char) : ∀ c ∈ hexExpand d, c ∈ d :=
  fun c hc => hexExpand3_subset d c (hexExpand4_subset (hexExpand3 d) c hc)

theorem slice_length_le (d : List Char) (a b : ℕ) (h : b ≤ a + 2) :
    ((d.take b).drop a).length ≤ 2 := by
  simp [List.length_drop, List.length_take]
  omega

theorem slice_subset (d : List Char) (a b : ℕ) : ∀ c ∈ (d.take b).drop a, c ∈ d :=
  fun c hc => List.mem_of_mem_take (List.mem_of_mem_drop hc)

/-- One two-digit hex channel read by `hexToRgba`: numeric implies in
`[0,1]`. -/
theorem hexChannel_inUnit (t : String) (hlen : t.data.length ≤ 2)
    (ht : ∀ c ∈ t.data, isHexDigit c = true) :
    inUnit (((jsParseIntHex t).map fun n => ((n : ℚ) / 255)).map Rat.cast) := by
  intro v hv
  rcases hjp : jsParseIntHex t with _ | n
  · rw [hjp] at hv; cases hv
  · rw [hjp] at hv
    simp at hv
    subst hv
    obtain ⟨h0, hlt⟩ := jsParseIntHex_hex t ht n hjp
    have h255 : n ≤ 255 := by
      have h1 : (16 : ℤ) ^ t.data.length ≤ 16 ^ 2 :=
        pow_le_pow_right (by norm_num) hlen
      omega
    have hq0 : (0 : ℚ) ≤ (n : ℚ) / 255 := by
      apply div_nonneg _ (by norm_num)
      exact_mod_cast h0
    have hq1 : (n : ℚ) / 255 ≤ 1 := by
      rw [div_le_one (by norm_num)]
      exact_mod_cast h255
    exact ⟨by exact_mod_cast hq0, by exact_mod_cast hq1⟩

/-- The four channels of `hexToRgba` on all-hex-digit content are in
`[0,1]` whenever numeric. -/
theorem hexToRgba_inUnit (s : String)
    (h : ∀ c ∈ (jsReplaceFirst s "#" "").data, isHexDigit c = true) :
    inUnit (hexToRgba s).toColor.r ∧ inUnit (hexToRgba s).toColor.g ∧
      inUnit (hexToRgba s).toColor.b ∧ inUnit (hexToRgba s).toColor.a := by
  have hd : ∀ c ∈ hexExpand (jsReplaceFirst s "#" "").data, isHexDigit c = true :=
    fun c hc => h c (hexExpand_subset _ c hc)
  have hsl : ∀ a b : ℕ, b ≤ a + 2 →
      inUnit (((jsParseIntHex
          (jsSlice ⟨hexExpand (jsReplaceFirst s "#" "").data⟩ a b)).map
        fun n => ((n : ℚ) / 255)).map Rat.cast) := by
    intro a b hab
    apply hexChannel_inUnit
    · exact slice_length_le _ a b hab
    · exact fun c hc => hd c (slice_subset _ a b c hc)
  refine ⟨?_, ?_, ?_, ?_⟩
  · simpa only [hexToRgba, FigmaColorQ.toColor, Option.map_map] using hsl 0 2 (by norm_num)
  · simpa only [hexToRgba, FigmaColorQ.toColor, Option.map_map] using hsl 2 4 (by norm_num)
  · simpa only [hexToRgba, FigmaColorQ.toColor, Option.map_map] using hsl 4 6 (by norm_num)
  · show inUnit ((hexToRgba s).a.map Rat.cast)
    by_cases h8 : (hexExpand (jsReplaceFirst s "#" "").data).length = 8
    · simpa only [hexToRgba, if_pos h8, Option.map_map] using hsl 6 8 (by norm_num)
    · simp only [hexToRgba, if_neg h8]
      intro v hv
      simp only [Option.map_some', Option.some.injEq] at hv
      subst hv
      norm_num

theorem namedColors_lookup_hex (v hx : String) (h : namedColors.lookup v = some hx) :
    ∀ c ∈ (jsReplaceFirst hx "#" "").data, isHexDigit c = true := by
  unfold namedColors at h
  simp only [List.lookup] at h
  split at h
  · simp only [Option.some.injEq] at h; subst h; decide
  · split at h
    · simp only [Option.some.injEq] at h; subst h; decide
    · split at h
      · simp only [Option.some.injEq] at h; subst h; decide
      · cases h

/-- C1 (amended): whenever `parseColorValue` returns a color and — if the
input reaches the hex branch — the content after `#` consists of hex digits
only, the numeric `r`, `g`, `b` channels lie in `[0,1]`; the `a` channel
also lies in `[0,1]` provided the color was not produced by the `oklch` or
`hsl` branch (those pass their parsed alpha through unclamped).  Malformed
hex digits yield `NaN` (or sign-carrying, negative) channels, and the
claim's blanket `[0,1]` bound for `a` fails — see the counterexample. -/
theorem parseColorValue_channel_ranges (s : String) (c : FigmaColor)
    (hp : parseColorValue s = some c)
    (hhex : jsStartsWith (jsToLower (jsTrim s)) "#" = true →
      ∀ ch ∈ (jsReplaceFirst (jsToLower (jsTrim s)) "#" "").data, isHexDigit ch = true) :
    (inUnit c.r ∧ inUnit c.g ∧ inUnit c.b) ∧
      (oklchFind (jsToLower (jsTrim s)).data = none →
        hslFind (jsToLower (jsTrim s)).data = none → inUnit c.a) := by
  unfold parseColorValue at hp
  rcases ho : oklchFind (jsToLower (jsTrim s)).data with _ | ⟨m1, m2, m3, m4⟩
  case some =>
    simp only [ho] at hp
    rw [Option.some_inj] at hp
    subst hp
    refine ⟨oklch_rgb_inUnit _ _ _ _, fun hno _ => ?_⟩
    simp [ho] at hno
  case none =>
  simp only [ho] at hp
  rcases hh : hslFind (jsToLower (jsTrim s)).data with _ | ⟨n1, n2, n3, n4⟩
  case some =>
    simp only [hh] at hp
    rw [Option.some_inj] at hp
    subst hp
    refine ⟨hsl_inUnit _ _ _ _, fun _ hno => ?_⟩
    simp [hh] at hno
  case none =>
  simp only [hh] at hp
  by_cases hrgb : jsStartsWith (jsToLower (jsTrim s)) "rgb" = true
  · simp only [hrgb, if_true] at hp
    rcases hr : rgbStringToRgba (jsToLower (jsTrim s)) with _ | col
    · rw [hr] at hp; cases hp
    · rw [hr] at hp
      simp only [Option.map_some', Option.some.injEq] at hp
      subst hp
      unfold rgbStringToRgba at hr
      rcases hf : rgbFind (jsToLower (jsTrim s)).data with _ | ⟨a1, a2, a3, a4⟩
      · rw [hf] at hr; cases hr
      · simp only [hf, Option.some.injEq] at hr
        subst hr
        exact ⟨⟨inUnit_clamp01q_cast _, inUnit_clamp01q_cast _, inUnit_clamp01q_cast _⟩,
          fun _ _ => inUnit_clamp01q_cast _⟩
  · simp only [hrgb, if_false, Bool.false_eq_true] at hp
    by_cases hhash : jsStartsWith (jsToLower (jsTrim s)) "#" = true
    · simp only [hhash, if_true] at hp
      rw [Option.some_inj] at hp
      subst hp
      obtain ⟨u1, u2, u3, u4⟩ := hexToRgba_inUnit _ (hhex hhash)
      exact ⟨⟨u1, u2, u3⟩, fun _ _ => u4⟩
    · simp only [hhash, if_false, Bool.false_eq_true] at hp
      rcases hlk : namedColors.lookup (jsToLower (jsTrim s)) with _ | hx
      · rw [hlk] at hp; cases hp
      · rw [hlk] at hp
        rw [Option.some_inj] at hp
        subst hp
        obtain ⟨u1, u2, u3, u4⟩ := hexToRgba_inUnit _ (namedColors_lookup_hex _ hx hlk)
        exact ⟨⟨u1, u2, u3⟩, fun _ _ => u4⟩

theorem oklchToRgba_alpha (L C H a : JSR) : (oklchToRgba L C H a).a = a := by
  cases L <;> cases C <;> cases H <;> rfl

/-- C1 (counterexample): on the input `oklch(0.5 0.1 200 / 2)` the parser
returns a color whose alpha channel is the number 2, which does not lie in
`[0,1]`: the oklch branch passes the parsed alpha through unclamped, so the
claim that all four channels of every returned color lie in `[0,1]` is
false. -/
theorem parseColorValue_alpha_unclamped_cex :
    ((parseColorValue "oklch(0.5 0.1 200 / 2)").map FigmaColor.a) = some (some 2) ∧
      ¬ ((2 : ℝ) ≤ 1) := by
  constructor
  · have hnorm : jsToLower (jsTrim "oklch(0.5 0.1 200 / 2)")
        = "oklch(0.5 0.1 200 / 2)" := by with_unfolding_all decide
    have ho : oklchFind "oklch(0.5 0.1 200 / 2)".data
        = some ("0.5", "0.1", "200", some "2") := by with_unfolding_all decide
    have he : jsEndsWith "2" "%" = false := by with_unfolding_all decide
    have hf : jsParseFloat "2" = some 2 := by with_unfolding_all decide
    unfold parseColorValue
    rw [hnorm]
    simp only [ho, he, hf, Bool.false_eq_true, if_false, Option.map_some',
      Option.some.injEq, oklchToRgba_alpha]
    norm_num
  · norm_num

/-- C1 (witness): the amended theorem applies to the concrete input
`black`, whose parse succeeds and whose channels are all in range. -/
theorem parseColorValue_channel_ranges_witness :
    parseColorValue "black" = some (hexToRgba "#000000").toColor ∧
      ((inUnit (hexToRgba "#000000").toColor.r ∧ inUnit (hexToRgba "#000000").toColor.g ∧
          inUnit (hexToRgba "#000000").toColor.b) ∧
        (oklchFind (jsToLower (jsTrim "black")).data = none →
          hslFind (jsToLower (jsTrim "black")).data = none →
          inUnit (hexToRgba "#000000").toColor.a)) := by
  have hnorm : jsToLower (jsTrim "black") = "black" := by with_unfolding_all decide
  have ho : oklchFind "black".data = none := by with_unfolding_all decide
  have hh : hslFind "black".data = none := by with_unfolding_all decide
  have hrgb : jsStartsWith "black" "rgb" = false := by with_unfolding_all decide
  have hhash : jsStartsWith "black" "#" = false := by with_unfolding_all decide
  have hlk : namedColors.lookup "black" = some "#000000" := by with_unfolding_all decide
  have hp : parseColorValue "black" = some (hexToRgba "#000000").toColor := by
    unfold parseColorValue
    rw [hnorm]
    simp only [ho, hh, hrgb, hhash, hlk, Bool.false_eq_true, if_false]
  refine ⟨hp, parseColorValue_channel_ranges "black" _ hp ?_⟩
  intro hcontra
  rw [hnorm] at hcontra
  exact absurd hcontra (by rw [hhash]; simp)

/-! ## Null on unrecognized input, and skip-and-continue (claim C3) -/

/-- Modelled from the spec (claim C3): does a normalized string match one
of the five documented color syntaxes — `oklch()`, `hsl()`/`hsla()`,
`rgb()`/`rgba()`, `#hex` with 3/4/6/8 hex digits, or a documented named
color?  The three function syntaxes are the source regexes; the hex form is
the spec's wording. -/
def matchesDocSyntax (v : String) : Bool :=
  (oklchFind v.data).isSome || (hslFind v.data).isSome || (rgbFind v.data).isSome ||
    (match v.data with
     | '#' :: rest => rest.all isHexDigit &&
         (rest.length = 3 || rest.length = 4 || rest.length = 6 || rest.length = 8)
     | _ => false) ||
    (namedColors.lookup v).isSome

theorem startsWithL_head {p : Char} {ps l : List Char}
    (h : startsWithL (p :: ps) l = true) : ∃ xs, l = p :: xs := by
  cases l with
  | nil => cases h
  | cons x xs =>
    simp only [startsWithL, Bool.and_eq_true, beq_iff_eq] at h
    exact ⟨xs, by rw [h.1]⟩

theorem not_color_and_text (t : String)
    (hc : jsStartsWith t "color-" = true) (ht : jsStartsWith t "text-" = true) : False := by
  obtain ⟨xs, hxs⟩ := startsWithL_head (p := 'c') hc
  obtain ⟨ys, hys⟩ := startsWithL_head (p := 't') ht
  rw [hxs] at hys
  cases hys

theorem string_eta (s : String) : (⟨s.data⟩ : String) = s := by
  cases s; rfl

theorem stripDashes_append (x : String) : stripDashes ("--" ++ x) = x := by
  unfold stripDashes
  have : ("--" ++ x).data = '-' :: '-' :: x.data := by
    rw [String.data_append]; rfl
  rw [this]
  exact string_eta x

theorem startsWithL_append (p l m : List Char) (h : startsWithL p l = true) :
    startsWithL p (l ++ m) = true := by
  induction p generalizing l with
  | nil => rfl
  | cons c cs ih =>
    cases l with
    | nil => cases h
    | cons x xs =>
      simp only [startsWithL, Bool.and_eq_true, beq_iff_eq] at h ⊢
      exact ⟨h.1, ih xs h.2⟩

theorem jsStartsWith_append (a b pat : String) (h : jsStartsWith a pat = true) :
    jsStartsWith (a ++ b) pat = true := by
  unfold jsStartsWith at h ⊢
  rw [String.data_append]
  exact startsWithL_append _ _ _ h

/-- A variable routed to the color branch can never be the target of a
typography sibling lookup. -/
theorem color_name_ne_text_key (v : CSSVariable)
    (hc : jsStartsWith (stripDashes v.name) "color-" = true)
    (key : String) (hk : jsStartsWith (stripDashes key) "text-" = true) :
    v.name ≠ key := by
  intro he
  rw [he] at hc
  exact not_color_and_text _ hc hk

theorem find?_middle_ne (pre post : List CSSVariable) (v : CSSVariable) (key : String)
    (hne : v.name ≠ key) :
    (pre ++ v :: post).find? (fun lv => lv.name == key)
      = (pre ++ post).find? (fun lv => lv.name == key) := by
  induction pre with
  | nil =>
    simp only [List.nil_append, List.find?]
    rw [show (v.name == key) = false by simpa using hne]
  | cons p ps ih =>
    simp only [List.cons_append, List.find?]
    cases hp : (p.name == key) <;> simp [ih]

/-- The categorizer step only consults the lookup at typography sibling
keys, all of which strip to a `text-` name; two lookups agreeing there
produce the same step. -/
theorem categorizeStepCore_congr (L1 L2 : String → Option CSSVariable)
    (h : ∀ k, jsStartsWith (stripDashes k) "text-" = true → L1 k = L2 k)
    (acc : ParsedTokenSet) (w : CSSVariable) :
    categorizeStepCore L1 acc w = categorizeStepCore L2 acc w := by
  show categorizeRules L1 acc w (stripDashes w.name)
    = categorizeRules L2 acc w (stripDashes w.name)
  rw [categorizeRules, categorizeRules]
  by_cases h1 : jsStartsWith (stripDashes w.name) "color-" = true
  · rw [if_pos h1, if_pos h1]
  · rw [if_neg h1, if_neg h1]
    by_cases h2 : stripDashes w.name = "spacing"
    · rw [if_pos h2, if_pos h2]
    · rw [if_neg h2, if_neg h2]
      by_cases h3 : jsStartsWith (stripDashes w.name) "breakpoint-" = true
      · rw [if_pos h3, if_pos h3]
      · rw [if_neg h3, if_neg h3]
        by_cases h4 : jsStartsWith (stripDashes w.name) "container-" = true
        · rw [if_pos h4, if_pos h4]
        · rw [if_neg h4, if_neg h4]
          by_cases h5 : (jsStartsWith (stripDashes w.name) "max-w-" || jsStartsWith (stripDashes w.name) "max-width-") = true
          · rw [if_pos h5, if_pos h5]
          · rw [if_neg h5, if_neg h5]
            by_cases h6 : jsStartsWith (stripDashes w.name) "font-weight-" = true
            · rw [if_pos h6, if_pos h6]
            · rw [if_neg h6, if_neg h6]
              by_cases h7 : jsStartsWith (stripDashes w.name) "tracking-" = true
              · rw [if_pos h7, if_pos h7]
              · rw [if_neg h7, if_neg h7]
                by_cases h8 : jsStartsWith (stripDashes w.name) "leading-" = true
                · rw [if_pos h8, if_pos h8]
                · rw [if_neg h8, if_neg h8]
                  by_cases h9 : jsStartsWith (stripDashes w.name) "radius" = true
                  · rw [if_pos h9, if_pos h9]
                  · rw [if_neg h9, if_neg h9]
                    by_cases h10 : (jsStartsWith (stripDashes w.name) "shadow-" && !jsStartsWith (stripDashes w.name) "shadow-inner") = true
                    · rw [if_pos h10, if_pos h10]
                    · rw [if_neg h10, if_neg h10]
                      by_cases h11 : jsStartsWith (stripDashes w.name) "inset-shadow-" = true
                      · rw [if_pos h11, if_pos h11]
                      · rw [if_neg h11, if_neg h11]
                        by_cases h12 : jsStartsWith (stripDashes w.name) "drop-shadow-" = true
                        · rw [if_pos h12, if_pos h12]
                        · rw [if_neg h12, if_neg h12]
                          by_cases h13 : jsStartsWith (stripDashes w.name) "text-shadow-" = true
                          · rw [if_pos h13, if_pos h13]
                          · rw [if_neg h13, if_neg h13]
                            by_cases h14 : jsStartsWith (stripDashes w.name) "blur" = true
                            · rw [if_pos h14, if_pos h14]
                            · rw [if_neg h14, if_neg h14]
                              by_cases h15 : jsStartsWith (stripDashes w.name) "backdrop-blur" = true
                              · rw [if_pos h15, if_pos h15]
                              · rw [if_neg h15, if_neg h15]
                                by_cases h16 : (jsStartsWith (stripDashes w.name) "text-" && !jsIncludes (stripDashes w.name) "shadow") = true
                                · rw [if_pos h16, if_pos h16]
                                  by_cases h17 : (jsEndsWith (stripDashes w.name) "--line-height" || jsEndsWith (stripDashes w.name) "--letter-spacing" || jsEndsWith (stripDashes w.name) "--font-weight") = true
                                  · rw [if_pos h17, if_pos h17]
                                  · rw [if_neg h17, if_neg h17]
                                    have ht : jsStartsWith (stripDashes w.name) "text-" = true := by
                                      simp only [Bool.and_eq_true] at h16
                                      exact h16.1
                                    have hk : ∀ suf : String, jsStartsWith (stripDashes ("--" ++ stripDashes w.name ++ suf)) "text-" = true := by
                                      intro suf
                                      rw [String.append_assoc, stripDashes_append]
                                      exact jsStartsWith_append _ _ _ ht
                                    rw [h _ (hk "--line-height"), h _ (hk "--letter-spacing"), h _ (hk "--font-weight")]
                                · rw [if_neg h16, if_neg h16]

/-- A variable in the color branch whose value does not parse leaves the
accumulated token set untouched. -/
theorem categorizeStep_color_none (L : String → Option CSSVariable) (acc : ParsedTokenSet)
    (v : CSSVariable) (hc : jsStartsWith (stripDashes v.name) "color-" = true)
    (hn : parseColorValue v.rawValue = none) :
    categorizeStepCore L acc v = acc := by
  show categorizeRules L acc v (stripDashes v.name) = acc
  rw [categorizeRules, if_pos hc, hn]

theorem foldl_congr_fun {α β : Type} (f g : β → α → β) (l : List α) (b : β)
    (h : ∀ acc x, f acc x = g acc x) : l.foldl f b = l.foldl g b := by
  induction l generalizing b with
  | nil => rfl
  | cons x xs ih => simp only [List.foldl_cons, h]; exact ih _

/-- Dropping a null-parsing `color-` variable from anywhere in the list
does not change the categorization result at all: no color entry is added
and every other variable is processed identically. -/
theorem categorizeTokens_skip_color_none (pre post : List CSSVariable) (v : CSSVariable)
    (hc : jsStartsWith (stripDashes v.name) "color-" = true)
    (hn : parseColorValue v.rawValue = none) :
    categorizeTokens (pre ++ v :: post) = categorizeTokens (pre ++ post) := by
  have hstep : ∀ acc w, categorizeStep (pre ++ v :: post) acc w
      = categorizeStep (pre ++ post) acc w := by
    intro acc w
    exact categorizeStepCore_congr _ _
      (fun k hk => find?_middle_ne pre post v k (color_name_ne_text_key v hc k hk)) acc w
  have hfold : (pre ++ v :: post).foldl (categorizeStep (pre ++ v :: post)) emptyTokenSet
      = (pre ++ post).foldl (categorizeStep (pre ++ post)) emptyTokenSet := by
    rw [foldl_congr_fun _ _ _ _ hstep]
    rw [List.foldl_append, List.foldl_append, List.foldl_cons]
    congr 1
    exact categorizeStep_color_none _ _ v hc hn
  unfold categorizeTokens
  rw [hfold]

theorem matchesDocSyntax_none (v : String) (hm : matchesDocSyntax v = false) :
    oklchFind v.data = none ∧ hslFind v.data = none ∧ rgbFind v.data = none ∧
      namedColors.lookup v = none := by
  unfold matchesDocSyntax at hm
  simp only [Bool.or_eq_false_iff] at hm
  refine ⟨?_, ?_, ?_, ?_⟩
  · cases h : oklchFind v.data with
    | none => rfl
    | some x => rw [h] at hm; simp at hm
  · cases h : hslFind v.data with
    | none => rfl
    | some x => rw [h] at hm; simp at hm
  · cases h : rgbFind v.data with
    | none => rfl
    | some x => rw [h] at hm; simp at hm
  · cases h : namedColors.lookup v with
    | none => rfl
    | some x => rw [h] at hm; simp at hm

/-- A call whose observable outcome is a returned `null` yields `none` in
the non-throwing projection (the two definitions share every branch; they
differ only in the named-branch arm for inherited keys, which is not the
`null` outcome). -/
theorem parseColorValue_none_of_JS_null (s : String)
    (h : parseColorValueJS s = ColorOutcome.null) : parseColorValue s = none := by
  unfold parseColorValueJS at h
  unfold parseColorValue
  cases ho : oklchFind (jsToLower (jsTrim s)).data with
  | some caps =>
    obtain ⟨m1, m2, m3, m4⟩ := caps
    simp [ho] at h
  | none =>
    simp only [ho] at h ⊢
    cases hhs : hslFind (jsToLower (jsTrim s)).data with
    | some caps =>
      obtain ⟨m1, m2, m3, m4⟩ := caps
      simp [hhs] at h
    | none =>
      simp only [hhs] at h ⊢
      by_cases hr : jsStartsWith (jsToLower (jsTrim s)) "rgb" = true
      · simp only [hr, if_true] at h ⊢
        cases hrv : rgbStringToRgba (jsToLower (jsTrim s)) with
        | some c => simp [hrv] at h
        | none => rfl
      · simp only [hr, Bool.false_eq_true, if_false] at h ⊢
        by_cases hx : jsStartsWith (jsToLower (jsTrim s)) "#" = true
        · simp [hx] at h
        · simp only [hx, Bool.false_eq_true, if_false] at h ⊢
          cases hn : namedColors.lookup (jsToLower (jsTrim s)) with
          | some hxs => simp [hn] at h
          | none => simp only [hn]

/-- C3 (amended): a string that, after normalization, matches none of the
five documented syntaxes, does not begin with `#` and is not one of the two
lower-case inherited `Object.prototype` keys parses to `null` without
throwing; the hex branch fires on every leading-`#` string regardless of
digit validity and the named branch throws on the inherited keys, see the
counterexample.  The categorizer, on a `color-` variable whose value
parses to `null`, adds no colors entry and processes all remaining
variables exactly as if the variable were absent. -/
theorem parseColorValue_null_and_skip :
    (∀ s : String, matchesDocSyntax (jsToLower (jsTrim s)) = false →
      jsStartsWith (jsToLower (jsTrim s)) "#" = false →
      jsToLower (jsTrim s) ∉ protoKeys →
      parseColorValueJS s = ColorOutcome.null) ∧
    (∀ (pre post : List CSSVariable) (v : CSSVariable),
      jsStartsWith (stripDashes v.name) "color-" = true →
      parseColorValueJS v.rawValue = ColorOutcome.null →
      categorizeTokens (pre ++ v :: post) = categorizeTokens (pre ++ post)) := by
  constructor
  · intro s hm hh hp
    obtain ⟨ho, hhsl, hrgbf, hnamed⟩ := matchesDocSyntax_none _ hm
    unfold parseColorValueJS
    simp only [ho, hhsl, hnamed, hh, Bool.false_eq_true, if_false]
    by_cases hr : jsStartsWith (jsToLower (jsTrim s)) "rgb" = true
    · simp only [hr, if_true]
      unfold rgbStringToRgba
      simp [hrgbf]
    · simp only [hr, Bool.false_eq_true, if_false]
      rw [if_neg hp]
  · exact fun pre post v hc hn =>
      categorizeTokens_skip_color_none pre post v hc (parseColorValue_none_of_JS_null _ hn)

/-- C3 (counterexample): two error paths refute the claim.  `#zz` matches
none of the five documented syntaxes yet produces a (NaN-channel) color
object rather than `null`; and `constructor`, which also matches none of
them and does not start with `#`, hits the truthy inherited
`Object.prototype.constructor` through the named-color lookup, so the code
calls `hexToRgba` on a non-string and throws a `TypeError` instead of
returning `null`. -/
theorem parseColorValue_throw_and_hex_cex :
    (matchesDocSyntax (jsToLower (jsTrim "#zz")) = false ∧
      parseColorValueJS "#zz" ≠ ColorOutcome.null) ∧
    (matchesDocSyntax (jsToLower (jsTrim "constructor")) = false ∧
      jsStartsWith (jsToLower (jsTrim "constructor")) "#" = false ∧
      parseColorValueJS "constructor" = ColorOutcome.typeError) := by
  constructor
  · constructor
    · with_unfolding_all decide
    · have hnorm : jsToLower (jsTrim "#zz") = "#zz" := by with_unfolding_all decide
      have ho : oklchFind "#zz".data = none := by with_unfolding_all decide
      have hh : hslFind "#zz".data = none := by with_unfolding_all decide
      have hr : jsStartsWith "#zz" "rgb" = false := by with_unfolding_all decide
      have hx : jsStartsWith "#zz" "#" = true := by with_unfolding_all decide
      unfold parseColorValueJS
      rw [hnorm]
      simp only [ho, hh, hr, hx, Bool.false_eq_true, if_false, if_true]
      simp
  · refine ⟨by with_unfolding_all decide, by with_unfolding_all decide, ?_⟩
    have hnorm : jsToLower (jsTrim "constructor") = "constructor" := by
      with_unfolding_all decide
    have ho : oklchFind "constructor".data = none := by with_unfolding_all decide
    have hh : hslFind "constructor".data = none := by with_unfolding_all decide
    have hr : jsStartsWith "constructor" "rgb" = false := by with_unfolding_all decide
    have hx : jsStartsWith "constructor" "#" = false := by with_unfolding_all decide
    have hn : namedColors.lookup "constructor" = none := by with_unfolding_all decide
    have hp : "constructor" ∈ protoKeys := by decide
    unfold parseColorValueJS
    rw [hnorm]
    simp only [ho, hh, hr, hx, hn, Bool.false_eq_true, if_false]
    rw [if_pos hp]

/-- C3 (witness): both halves of the amended theorem apply to concrete
inputs — `not-a-color` (no inherited key) parses to `null` without
throwing, and dropping a null-parsing `--color-bad` variable from the
middle of a list leaves categorization unchanged. -/
theorem parseColorValue_null_and_skip_witness :
    (matchesDocSyntax (jsToLower (jsTrim "not-a-color")) = false ∧
      jsStartsWith (jsToLower (jsTrim "not-a-color")) "#" = false ∧
      jsToLower (jsTrim "not-a-color") ∉ protoKeys ∧
      parseColorValueJS "not-a-color" = ColorOutcome.null) ∧
    (jsStartsWith (stripDashes "--color-bad") "color-" = true ∧
      parseColorValueJS "nope" = ColorOutcome.null ∧
      categorizeTokens ([⟨"--radius-sm", "4px"⟩] ++
          (⟨"--color-bad", "nope"⟩ : CSSVariable) :: [⟨"--text-sm", "14px"⟩])
        = categorizeTokens ([⟨"--radius-sm", "4px"⟩] ++ [⟨"--text-sm", "14px"⟩])) := by
  have hn : parseColorValueJS "nope" = ColorOutcome.null :=
    parseColorValue_null_and_skip.1 "nope" (by with_unfolding_all decide)
      (by with_unfolding_all decide) (by with_unfolding_all decide)
  refine ⟨⟨by with_unfolding_all decide, by with_unfolding_all decide,
      by with_unfolding_all decide, ?_⟩,
    by with_unfolding_all decide, hn, ?_⟩
  · exact parseColorValue_null_and_skip.1 "not-a-color" (by with_unfolding_all decide)
      (by with_unfolding_all decide) (by with_unfolding_all decide)
  · exact parseColorValue_null_and_skip.2 [⟨"--radius-sm", "4px"⟩] [⟨"--text-sm", "14px"⟩]
      ⟨"--color-bad", "nope"⟩ (by with_unfolding_all decide) hn

/-! ## Last-occurrence-wins in the root/dark maps (claim C8) -/

/-- Object-map construction realizes "last assignment wins": the lookup is
the last list entry with the given name. -/
theorem recordOfVars_eq_last (vars : List CSSVariable) (k : String) :
    recordOfVars vars k
      = (vars.reverse.find? (fun v => v.name == k)).map CSSVariable.rawValue := by
  suffices h : ∀ acc : String → Option String,
      (vars.foldl (fun acc v => fun k2 => if k2 = v.name then some v.rawValue else acc k2)
          acc) k
        = match vars.reverse.find? (fun v => v.name == k) with
          | some v => some v.rawValue
          | none => acc k by
    rw [recordOfVars, h]
    cases vars.reverse.find? (fun v => v.name == k) <;> rfl
  induction vars with
  | nil => intro acc; rfl
  | cons v vs ih =>
    intro acc
    simp only [List.foldl_cons, List.reverse_cons, List.find?_append]
    rw [ih]
    cases hf : vs.reverse.find? (fun v2 => v2.name == k) with
    | some w => simp [Option.or]
    | none =>
      simp only [Option.or, List.find?]
      by_cases hveq : v.name = k
      · simp [hveq]
      · have hb : (v.name == k) = false := by simp [hveq]
        simp [hb, show ¬ k = v.name from fun h => hveq h.symm]

/-- C8: within the first `:root` block (respectively the first `.dark`
block), a custom property declared more than once is bound in the returned
light (respectively dark) map to the value of its **last** occurrence: the
map lookup equals the last matching extracted declaration. -/
theorem parseRootAndDark_last_wins (css : String) (k : String) :
    (∀ body : List Char, blockFind ":root".data css.data = some body →
      (parseRootAndDark css).light k
        = ((extractCSSVariables ⟨body⟩).reverse.find?
            (fun v => v.name == k)).map CSSVariable.rawValue) ∧
    (∀ body : List Char, blockFind ".dark".data css.data = some body →
      (parseRootAndDark css).dark k
        = ((extractCSSVariables ⟨body⟩).reverse.find?
            (fun v => v.name == k)).map CSSVariable.rawValue) := by
  constructor
  · intro body hb
    unfold parseRootAndDark
    simp only [hb]
    exact recordOfVars_eq_last _ k
  · intro body hb
    unfold parseRootAndDark
    simp only [hb]
    exact recordOfVars_eq_last _ k

/-- C8 (witness): in a text whose `:root` block binds `--x` twice (to `1`
then `2`) and whose `.dark` block binds it once (to `3`), the light map
returns the last value `2` and the dark map returns `3`. -/
theorem parseRootAndDark_last_wins_witness :
    (∃ body : List Char,
      blockFind ":root".data
          ":root \x7b --x: 1; --x: 2; \x7d .dark \x7b --x: 3; \x7d".data = some body ∧
      (parseRootAndDark ":root \x7b --x: 1; --x: 2; \x7d .dark \x7b --x: 3; \x7d").light "--x"
        = ((extractCSSVariables ⟨body⟩).reverse.find?
            (fun v => v.name == "--x")).map CSSVariable.rawValue ∧
      ((extractCSSVariables ⟨body⟩).reverse.find?
            (fun v => v.name == "--x")).map CSSVariable.rawValue = some "2") ∧
    (parseRootAndDark ":root \x7b --x: 1; --x: 2; \x7d .dark \x7b --x: 3; \x7d").dark "--x"
      = some "3" := by
  constructor
  · refine ⟨" --x: 1; --x: 2; ".data, ?_, ?_, ?_⟩
    · with_unfolding_all decide
    · exact (parseRootAndDark_last_wins _ "--x").1 _ (by with_unfolding_all decide)
    · with_unfolding_all decide
  · rw [(parseRootAndDark_last_wins _ "--x").2 " --x: 3; ".data
      (by with_unfolding_all decide)]
    with_unfolding_all decide

/-! ## Depth-0 comma splitting of shadow lists (claim C6) -/

theorem data_asString (l : List Char) : (l.asString).data = l := rfl

theorem depth0SplitGo_ne_nil (cs : List Char) : ∀ (depth : ℤ) (current : List Char),
    depth0SplitGo cs depth current ≠ [] := by
  induction cs with
  | nil => intro depth current; simp [depth0SplitGo]
  | cons c cs ih =>
    intro depth current
    simp only [depth0SplitGo]
    split
    · simp
    · exact ih _ _

/-- The code-derived splitter returns exactly the depth-0 comma pieces,
except that the final piece is dropped when its trim is empty. -/
theorem splitShadowGo_last (cs : List Char) : ∀ (depth : ℤ) (current : List Char)
    (ps : List String) (p : String),
    depth0SplitGo cs depth current = ps ++ [p] →
    splitShadowGo cs depth current = if (trimL p.data).isEmpty then ps else ps ++ [p] := by
  induction cs with
  | nil =>
    intro depth current ps p h
    simp only [depth0SplitGo] at h
    cases ps with
    | nil =>
      simp only [List.nil_append, List.cons.injEq, and_true] at h
      rw [← h]
      simp [splitShadowGo, data_asString]
    | cons q qs =>
      have hl := congrArg List.length h
      simp only [List.length_cons, List.length_append, List.length_nil] at hl
      omega
  | cons c cs ih =>
    intro depth current ps p h
    simp only [depth0SplitGo] at h
    simp only [splitShadowGo]
    split at h
    · rename_i hc
      rw [if_pos hc]
      cases ps with
      | nil =>
        exfalso
        simp only [List.nil_append, List.cons.injEq] at h
        exact depth0SplitGo_ne_nil cs _ [] h.2
      | cons q qs =>
        simp only [List.cons_append, List.cons.injEq] at h
        obtain ⟨hq, hrest⟩ := h
        rw [ih _ _ _ _ hrest, hq]
        by_cases hp : (trimL p.data).isEmpty = true
        · rw [if_pos hp, if_pos hp]
        · rw [if_neg hp, if_neg hp]
          rfl
    · rename_i hc
      rw [if_neg hc]
      exact ih _ _ _ _ h

/-- C6: `splitShadowParts` splits its input at exactly the commas occurring
at parenthesis depth 0 (the depth is incremented on an opening parenthesis
and decremented on a closing one): its result is the spec-modelled list of
pieces between consecutive depth-0 commas, except that a trailing piece
whose trim is empty is dropped.  Commas nested inside color functions never
separate layers, and the documented two-layer example returns exactly 2
parts. -/
theorem splitShadowParts_depth0_commas :
    (∀ (value : String) (ps : List String) (p : String),
        depth0Split value = ps ++ [p] →
        splitShadowParts value = if (trimL p.data).isEmpty then ps else ps ++ [p]) ∧
    splitShadowParts "0 1px 2px rgb(0,0,0,0.1), inset 0 0 0 1px oklch(0.5 0.1 200)"
        = ["0 1px 2px rgb(0,0,0,0.1)", " inset 0 0 0 1px oklch(0.5 0.1 200)"] ∧
    (splitShadowParts "0 1px 2px rgb(0,0,0,0.1), inset 0 0 0 1px oklch(0.5 0.1 200)").length
        = 2 := by
  refine ⟨fun value ps p h => splitShadowGo_last value.data 0 [] ps p h, ?_, ?_⟩
  · with_unfolding_all decide
  · with_unfolding_all decide

/-- C6 (witness): on `a,(b,c)` the depth-0 split is `a` and `(b,c)` (the
nested comma does not separate), and the splitter keeps both pieces. -/
theorem splitShadowParts_depth0_commas_witness :
    depth0Split "a,(b,c)" = ["a"] ++ ["(b,c)"] ∧
    splitShadowParts "a,(b,c)"
      = if (trimL "(b,c)".data).isEmpty then ["a"] else ["a"] ++ ["(b,c)"] :=
  ⟨by with_unfolding_all decide,
   splitShadowParts_depth0_commas.1 "a,(b,c)" ["a"] "(b,c)" (by with_unfolding_all decide)⟩

/-! ## Shadow layer defaults (claim C7) -/

theorem startsWithL_exists (pat : List Char) : ∀ l : List Char,
    startsWithL pat l = true → ∃ r, l = pat ++ r := by
  induction pat with
  | nil => intro l _; exact ⟨l, rfl⟩
  | cons p ps ih =>
    intro l h
    cases l with
    | nil => cases h
    | cons c cs =>
      simp only [startsWithL, Bool.and_eq_true, beq_iff_eq] at h
      obtain ⟨r, hr⟩ := ih cs h.2
      exact ⟨r, by rw [h.1, hr, List.cons_append]⟩

theorem startsWithL_prefix (pat r : List Char) : startsWithL pat (pat ++ r) = true := by
  induction pat with
  | nil => rfl
  | cons p ps ih => simp [startsWithL, ih]

theorem occursL_of_starts (pat l : List Char) (h : startsWithL pat l = true) :
    occursL pat l = true := by
  cases l with
  | nil => exact h
  | cons c cs => simp only [occursL, Bool.or_eq_true]; exact Or.inl h

theorem occursL_exists (pat : List Char) : ∀ l, occursL pat l = true →
    ∃ a b, l = a ++ (pat ++ b) := by
  intro l
  induction l with
  | nil =>
    intro h
    obtain ⟨r, hr⟩ := startsWithL_exists pat [] h
    exact ⟨[], r, by simpa using hr⟩
  | cons c cs ih =>
    intro h
    simp only [occursL, Bool.or_eq_true] at h
    cases h with
    | inl h =>
      obtain ⟨r, hr⟩ := startsWithL_exists pat _ h
      exact ⟨[], r, by simpa using hr⟩
    | inr h =>
      obtain ⟨a, b, hab⟩ := ih h
      exact ⟨c :: a, b, by rw [hab]; rfl⟩

theorem occursL_of_exists (pat a b : List Char) : occursL pat (a ++ (pat ++ b)) = true := by
  induction a with
  | nil => exact occursL_of_starts _ _ (by simpa using startsWithL_prefix pat b)
  | cons c cs ih =>
    simp only [List.cons_append, occursL, Bool.or_eq_true]
    exact Or.inr ih

theorem occursL_mono (pat sub l : List Char) (hinf : sub <:+: l)
    (h : occursL pat sub = true) : occursL pat l = true := by
  obtain ⟨a, b, hab⟩ := hinf
  obtain ⟨x, y, hxy⟩ := occursL_exists pat sub h
  have hl : l = (a ++ x) ++ (pat ++ (y ++ b)) := by
    rw [← hab, hxy]; simp [List.append_assoc]
  rw [hl]
  exact occursL_of_exists _ _ _

theorem stripLit_exists (p : List Char) : ∀ l r, stripLit p l = some r → l = p ++ r := by
  induction p with
  | nil => intro l r h; simpa using Option.some.inj h
  | cons p ps ih =>
    intro l r h
    cases l with
    | nil => cases h
    | cons c cs =>
      simp only [stripLit] at h
      by_cases hc : (p == c) = true
      · rw [if_pos hc] at h
        rw [ih cs r h, beq_iff_eq.mp hc, List.cons_append]
      · rw [if_neg hc] at h
        cases h

/-- The trimmed list is an infix of the original. -/
theorem trimL_isInfix (l : List Char) : trimL l <:+: l := by
  have h1 : trimL l <+: l.dropWhile jsSpace := by
    have h2 : (l.dropWhile jsSpace).reverse.dropWhile jsSpace <:+ (l.dropWhile jsSpace).reverse :=
      List.dropWhile_suffix _
    have h3 := List.reverse_prefix.mpr h2
    simpa [trimL] using h3
  exact h1.isInfix.trans (List.dropWhile_suffix _).isInfix

/-- Stripping a leading `inset` keyword leaves an infix of the original. -/
theorem stripInset_isInfix (s : String) : (stripInset s).data <:+: s.data := by
  unfold stripInset
  split
  · rename_i r heq
    split
    · exact List.infix_rfl
    · have hs : s.data = "inset".data ++ r := stripLit_exists _ _ _ heq
      refine ⟨"inset".data ++ r.takeWhile jsSpace, [], ?_⟩
      rw [hs]
      simp [List.append_assoc, List.takeWhile_append_dropWhile]
  · exact List.infix_rfl

theorem colorFnAt_starts (cs : List Char) (m : List Char) (h : colorFnAt cs = some m) :
    startsWithL "rgb".data cs = true ∨ startsWithL "oklch".data cs = true ∨
      startsWithL "hsl".data cs = true := by
  unfold colorFnAt at h
  cases h1 : stripLit "rgb".data cs with
  | some r1 =>
    left
    rw [stripLit_exists _ _ _ h1]
    exact startsWithL_prefix _ _
  | none =>
    cases h2 : stripLit "oklch".data cs with
    | some r2 =>
      right; left
      rw [stripLit_exists _ _ _ h2]
      exact startsWithL_prefix _ _
    | none =>
      cases h3 : stripLit "hsl".data cs with
      | some r3 =>
        right; right
        rw [stripLit_exists _ _ _ h3]
        exact startsWithL_prefix _ _
      | none =>
        exfalso
        rw [h1, h2, h3] at h
        simp [Option.orElse] at h

theorem colorFnFind_occurs (cs : List Char) (m : List Char) (h : colorFnFind cs = some m) :
    occursL "rgb".data cs = true ∨ occursL "oklch".data cs = true ∨
      occursL "hsl".data cs = true := by
  induction cs with
  | nil => cases h
  | cons c cs ih =>
    simp only [colorFnFind] at h
    cases ha : colorFnAt (c :: cs) with
    | some x =>
      rcases colorFnAt_starts _ _ ha with h1 | h1 | h1
      · exact Or.inl (occursL_of_starts _ _ h1)
      · exact Or.inr (Or.inl (occursL_of_starts _ _ h1))
      · exact Or.inr (Or.inr (occursL_of_starts _ _ h1))
    | none =>
      rw [ha] at h
      simp only [Option.orElse, Option.none_orElse] at h
      rcases ih h with h1 | h1 | h1
      · exact Or.inl (by simp [occursL, h1])
      · exact Or.inr (Or.inl (by simp [occursL, h1]))
      · exact Or.inr (Or.inr (by simp [occursL, h1]))

/-- A part with none of the three color-function tokens as a substring has
no color-function match after trimming and `inset` stripping. -/
theorem colorFnFind_none_of_no_tokens (part : String)
    (hr : occursL "rgb".data part.data = false)
    (ho : occursL "oklch".data part.data = false)
    (hh : occursL "hsl".data part.data = false) :
    colorFnFind (stripInset (jsTrim part)).data = none := by
  cases h : colorFnFind (stripInset (jsTrim part)).data with
  | none => rfl
  | some m =>
    exfalso
    have hinf : (stripInset (jsTrim part)).data <:+: part.data :=
      (stripInset_isInfix (jsTrim part)).trans (trimL_isInfix part.data)
    rcases colorFnFind_occurs _ _ h with h1 | h1 | h1
    · simp [occursL_mono _ _ _ hinf h1] at hr
    · simp [occursL_mono _ _ _ hinf h1] at ho
    · simp [occursL_mono _ _ _ hinf h1] at hh

theorem shadowColorStr_default (part : String)
    (h : colorFnFind (stripInset (jsTrim part)).data = none) :
    shadowColorStr part = "rgb(0 0 0 / 0.1)" := by
  unfold shadowColorStr
  rw [h]

/-- The default shadow color string parses to exact semi-transparent
black. -/
theorem parseColorValue_default_shadow :
    parseColorValue "rgb(0 0 0 / 0.1)" = some ⟨some 0, some 0, some 0, some 0.1⟩ := by
  have hnorm : jsToLower (jsTrim "rgb(0 0 0 / 0.1)") = "rgb(0 0 0 / 0.1)" := by
    with_unfolding_all decide
  have ho : oklchFind "rgb(0 0 0 / 0.1)".data = none := by with_unfolding_all decide
  have hh : hslFind "rgb(0 0 0 / 0.1)".data = none := by with_unfolding_all decide
  have hr : jsStartsWith "rgb(0 0 0 / 0.1)" "rgb" = true := by with_unfolding_all decide
  have hrgb : rgbStringToRgba "rgb(0 0 0 / 0.1)"
      = some ⟨some 0, some 0, some 0, some (1/10)⟩ := by with_unfolding_all decide
  unfold parseColorValue
  rw [hnorm]
  simp only [ho, hh, hr, if_true, hrgb, Option.map_some']
  simp only [FigmaColorQ.toColor, Option.map_some']
  norm_num

/-- Evaluation of `parseShadowLayer` on a two-field non-inset part. -/
theorem parseShadowLayer_concrete (part : String) (x y : ℚ)
    (hne : (jsTrim part).data.isEmpty = false)
    (hnums : shadowNums part = [x, y])
    (hins : jsStartsWith (jsTrim part) "inset" = false) :
    parseShadowLayer part = some ⟨x, y, 0, 0,
      (parseColorValue (shadowColorStr part)).getD ⟨some 0, some 0, some 0, some 0.1⟩,
      ShadowType.dropShadow⟩ := by
  simp only [parseShadowLayer]
  rw [if_neg (by simp [hne]), hnums, hins]
  rfl

/-- C7: a shadow layer part with at most two numeric fields besides its
color token gets `blur = 0` and `spread = 0`; a part containing none of
the `rgb`, `oklch`, `hsl` substrings gets the default semi-transparent
black color; and the documented two-field example `2px 4px oklch(0 0 0)`
yields `x = 2`, `y = 4`, `blur = 0`, `spread = 0`. -/
theorem parseShadowLayer_defaults :
    (∀ (part : String) (layer : ShadowLayer), (shadowNums part).length ≤ 2 →
        parseShadowLayer part = some layer → layer.blur = 0 ∧ layer.spread = 0) ∧
    (∀ (part : String) (layer : ShadowLayer),
        jsIncludes part "rgb" = false → jsIncludes part "oklch" = false →
        jsIncludes part "hsl" = false →
        parseShadowLayer part = some layer →
        layer.color = ⟨some 0, some 0, some 0, some 0.1⟩) ∧
    (∃ layer : ShadowLayer, parseShadowLayer "2px 4px oklch(0 0 0)" = some layer ∧
        layer.x = 2 ∧ layer.y = 4 ∧ layer.blur = 0 ∧ layer.spread = 0) := by
  refine ⟨?_, ?_, ?_⟩
  · intro part layer hlen h
    simp only [parseShadowLayer] at h
    by_cases he : (jsTrim part).data.isEmpty = true
    · rw [if_pos he] at h; cases h
    · rw [if_neg he] at h
      have hl := Option.some.inj h
      subst hl
      constructor
      · show (shadowNums part).getD 2 0 = 0
        exact List.getD_eq_default _ _ (le_trans hlen (by norm_num))
      · show (shadowNums part).getD 3 0 = 0
        exact List.getD_eq_default _ _ (le_trans hlen (by norm_num))
  · intro part layer hr ho hh h
    have hcf : colorFnFind (stripInset (jsTrim part)).data = none :=
      colorFnFind_none_of_no_tokens part hr ho hh
    have hcs : shadowColorStr part = "rgb(0 0 0 / 0.1)" := shadowColorStr_default part hcf
    simp only [parseShadowLayer] at h
    by_cases he : (jsTrim part).data.isEmpty = true
    · rw [if_pos he] at h; cases h
    · rw [if_neg he] at h
      have hl := Option.some.inj h
      subst hl
      show (parseColorValue (shadowColorStr part)).getD _ = _
      rw [hcs, parseColorValue_default_shadow]
      rfl
  · have hsome := parseShadowLayer_concrete "2px 4px oklch(0 0 0)" 2 4
      (by with_unfolding_all decide) (by with_unfolding_all decide)
      (by with_unfolding_all decide)
    exact ⟨_, hsome, rfl, rfl, rfl, rfl⟩

/-- C7 (witness): the colorless two-field part `1px 1px` parses to a layer
with default blur, spread and color. -/
theorem parseShadowLayer_defaults_witness :
    (shadowNums "1px 1px").length ≤ 2 ∧
    jsIncludes "1px 1px" "rgb" = false ∧ jsIncludes "1px 1px" "oklch" = false ∧
    jsIncludes "1px 1px" "hsl" = false ∧
    ∃ layer : ShadowLayer, parseShadowLayer "1px 1px" = some layer ∧
      (layer.blur = 0 ∧ layer.spread = 0) ∧
      layer.color = ⟨some 0, some 0, some 0, some 0.1⟩ := by
  have hsome := parseShadowLayer_concrete "1px 1px" 1 1
    (by with_unfolding_all decide) (by with_unfolding_all decide)
    (by with_unfolding_all decide)
  refine ⟨by with_unfolding_all decide, by with_unfolding_all decide,
    by with_unfolding_all decide, by with_unfolding_all decide, _, hsome, ?_, ?_⟩
  · exact parseShadowLayer_defaults.1 "1px 1px" _ (by with_unfolding_all decide) hsome
  · exact parseShadowLayer_defaults.2.1 "1px 1px" _ (by with_unfolding_all decide)
      (by with_unfolding_all decide) (by with_unfolding_all decide) hsome

/-! ## Spacing-scale synthesis (claim C4) -/

/-- The spacing post-pass replaces a single-entry spacing family by the
generated scale over its value. -/
theorem categorizeTokens_spacing_replace (vars : List CSSVariable) (e : ParsedFloat)
    (hsp : (vars.foldl (categorizeStep vars) emptyTokenSet).spacing = [e]) :
    (categorizeTokens vars).spacing = generateSpacingScale e.value := by
  simp only [categorizeTokens]
  rw [hsp]

theorem generateSpacingScale_length (b : JSQ) : (generateSpacingScale b).length = 33 := rfl

/-- Entry-wise description of the generated scale: step names and
`step × base` values. -/
theorem generateSpacingScale_getD (b : ℚ) (i : ℕ) (hi : i < 33) :
    (generateSpacingScale (some b)).getD i ⟨[], none, ""⟩
      = ⟨[spacingStepName (spacingSteps.getD i 0)],
         some (spacingSteps.getD i 0 * b),
         jsNumToStr (some (spacingSteps.getD i 0 * b)) ++ "px"⟩ := by
  interval_cases i <;> rfl

/-- C4: when the rule chain leaves exactly one spacing entry with numeric
value `b`, the returned spacing family is the fixed 33-step table: entry
`i` carries the value `stepᵢ × b` and the path name built from the decimal
step string with dots replaced by underscores; in particular
`--spacing: 4px` produces 33 entries whose index-7 (step 4) entry has
value 16 and path name `4`. -/
theorem categorizeTokens_spacing_scale :
    (∀ (vars : List CSSVariable) (e : ParsedFloat) (b : ℚ),
        (vars.foldl (categorizeStep vars) emptyTokenSet).spacing = [e] →
        e.value = some b →
        (categorizeTokens vars).spacing = generateSpacingScale (some b) ∧
        (categorizeTokens vars).spacing.length = 33 ∧
        ∀ i : ℕ, i < 33 →
          (categorizeTokens vars).spacing.getD i ⟨[], none, ""⟩
            = ⟨[spacingStepName (spacingSteps.getD i 0)],
               some (spacingSteps.getD i 0 * b),
               jsNumToStr (some (spacingSteps.getD i 0 * b)) ++ "px"⟩) ∧
    (categorizeTokens [⟨"--spacing", "4px"⟩]).spacing.length = 33 ∧
    (categorizeTokens [⟨"--spacing", "4px"⟩]).spacing.getD 7 ⟨[], none, ""⟩
      = ⟨["4"], some 16, "16px"⟩ := by
  have hfold : (([⟨"--spacing", "4px"⟩] : List CSSVariable).foldl
      (categorizeStep [⟨"--spacing", "4px"⟩]) emptyTokenSet).spacing
      = [⟨["base"], some 4, "4px"⟩] := by with_unfolding_all decide
  have hconc := categorizeTokens_spacing_replace [⟨"--spacing", "4px"⟩]
    ⟨["base"], some 4, "4px"⟩ hfold
  refine ⟨fun vars e b hsp hb => ?_, ?_, ?_⟩
  · have h1 := categorizeTokens_spacing_replace vars e hsp
    rw [hb] at h1
    exact ⟨h1, by rw [h1]; exact generateSpacingScale_length _,
      fun i hi => by rw [h1]; exact generateSpacingScale_getD b i hi⟩
  · rw [hconc]; with_unfolding_all decide
  · rw [hconc]; with_unfolding_all decide

/-- C4 (witness): the single variable `--spacing: 4px` leaves exactly one
spacing entry of value 4, and the final spacing family is the generated
scale over 4. -/
theorem categorizeTokens_spacing_scale_witness :
    (([⟨"--spacing", "4px"⟩] : List CSSVariable).foldl
        (categorizeStep [⟨"--spacing", "4px"⟩]) emptyTokenSet).spacing
      = [⟨["base"], some 4, "4px"⟩] ∧
    (⟨["base"], some 4, "4px"⟩ : ParsedFloat).value = some 4 ∧
    (categorizeTokens [⟨"--spacing", "4px"⟩]).spacing = generateSpacingScale (some 4) :=
  ⟨by with_unfolding_all decide, rfl,
   (categorizeTokens_spacing_scale.1 [⟨"--spacing", "4px"⟩] ⟨["base"], some 4, "4px"⟩ 4
     (by with_unfolding_all decide) rfl).1⟩

/-! ## Typography composite assembly (claim C5) -/

theorem startsWithL_ne1 (c : Char) (qs : List Char) (d : Char) (l : List Char)
    (h : c ≠ d) : startsWithL (c :: qs) (d :: l) = false := by
  simp only [startsWithL]
  rw [show (c == d) = false from beq_eq_false_iff_ne.mpr h, Bool.false_and]

theorem startsWithL_ne2 (c1 c2 : Char) (qs : List Char) (d1 d2 : Char) (l : List Char)
    (h : c2 ≠ d2) : startsWithL (c1 :: c2 :: qs) (d1 :: d2 :: l) = false := by
  simp only [startsWithL]
  rw [show (c2 == d2) = false from beq_eq_false_iff_ne.mpr h, Bool.false_and, Bool.and_false]

theorem stripLit_prefix (p : List Char) : ∀ r, stripLit p (p ++ r) = some r := by
  induction p with
  | nil => intro r; rfl
  | cons c cs ih => intro r; simp [stripLit, ih]

theorem jsReplaceFirst_text (s : String) : jsReplaceFirst ("text-" ++ s) "text-" "" = s := by
  have hstrip : stripLit "text-".data ('t' :: 'e' :: 'x' :: 't' :: '-' :: s.data)
      = some s.data := stripLit_prefix "text-".data s.data
  have h1 : replaceFirstL "text-".data "".data ('t' :: 'e' :: 'x' :: 't' :: '-' :: s.data)
      = s.data := by
    simp only [replaceFirstL, hstrip, List.nil_append]
  have hd : ("text-" ++ s).data = 't' :: 'e' :: 'x' :: 't' :: '-' :: s.data := rfl
  show (⟨replaceFirstL "text-".data "".data (("text-" ++ s)).data⟩ : String) = s
  rw [hd, h1]

/-- A matched `calc(A / B)` with numeric captures and nonzero denominator
evaluates to the exact ratio. -/
theorem evaluateCalc_calcForm (value na nb : String) (A B : ℚ)
    (hcf : calcFind value.data = some (na, nb))
    (hA : jsParseFloat na = some A) (hB : jsParseFloat nb = some B) (hB0 : B ≠ 0) :
    evaluateCalc value = some (some (A / B)) := by
  unfold evaluateCalc
  rw [hcf]
  show (if jsParseFloat nb ≠ some 0 then some (qDiv (jsParseFloat na) (jsParseFloat nb))
        else match jsParseFloat value with | none => none | some q => some (some q))
      = some (some (A / B))
  rw [hA, hB, if_pos (by simp [hB0])]
  simp [qDiv, hB0]

theorem borderSkewStep_typography (name : String) (v : CSSVariable) (r : ParsedTokenSet) :
    (borderSkewStep name v r).typography = r.typography := by
  simp only [borderSkewStep]
  split
  · cases hd : parseDimension v.rawValue <;> rfl
  · split
    · cases hd : jsParseFloat v.rawValue <;> rfl
    · rfl

theorem pushShadow_typography_ite (r : ParsedTokenSet) (c : Prop) [Decidable c]
    (e : ParsedShadow) : (if c then pushShadow r e else r).typography = r.typography := by
  split <;> rfl

/-- The spacing post-pass never changes the typography family. -/
theorem categorizeTokens_typography (vars : List CSSVariable) :
    (categorizeTokens vars).typography
      = (vars.foldl (categorizeStep vars) emptyTokenSet).typography := by
  simp only [categorizeTokens]
  split <;> rfl

/-- On a `text-`-prefixed, shadow-free name the rule chain reduces to the
typography branch. -/
theorem categorizeRules_text (lookup : String → Option CSSVariable) (r : ParsedTokenSet)
    (v : CSSVariable) (name : String)
    (ht : jsStartsWith name "text-" = true)
    (hsh : jsIncludes name "shadow" = false) :
    categorizeRules lookup r v name =
      if jsEndsWith name "--line-height" || jsEndsWith name "--letter-spacing" ||
          jsEndsWith name "--font-weight" then r
      else
        match parseDimension v.rawValue with
        | some dim =>
          pushTypography r ⟨jsReplaceFirst name "text-" "", dim,
            (match lookup ("--" ++ name ++ "--line-height") with
             | some lhVar => evaluateCalc lhVar.rawValue
             | none => none),
            (match lookup ("--" ++ name ++ "--letter-spacing") with
             | some lsVar => parseDimension lsVar.rawValue
             | none => none),
            (match lookup ("--" ++ name ++ "--font-weight") with
             | some fwVar => jsParseFloat fwVar.rawValue
             | none => none),
            v.rawValue⟩
        | none => r := by
  obtain ⟨rest, hrest⟩ := startsWithL_exists "text-".data name.data ht
  have hc1 : jsStartsWith name "color-" = false := by
    unfold jsStartsWith; rw [hrest]; exact startsWithL_ne1 _ _ _ _ (by decide)
  have hc2 : ¬(name = "spacing") := fun he => absurd (he ▸ ht) (by decide)
  have hc3 : jsStartsWith name "breakpoint-" = false := by
    unfold jsStartsWith; rw [hrest]; exact startsWithL_ne1 _ _ _ _ (by decide)
  have hc4 : jsStartsWith name "container-" = false := by
    unfold jsStartsWith; rw [hrest]; exact startsWithL_ne1 _ _ _ _ (by decide)
  have hc5a : jsStartsWith name "max-w-" = false := by
    unfold jsStartsWith; rw [hrest]; exact startsWithL_ne1 _ _ _ _ (by decide)
  have hc5b : jsStartsWith name "max-width-" = false := by
    unfold jsStartsWith; rw [hrest]; exact startsWithL_ne1 _ _ _ _ (by decide)
  have hc6 : jsStartsWith name "font-weight-" = false := by
    unfold jsStartsWith; rw [hrest]; exact startsWithL_ne1 _ _ _ _ (by decide)
  have hc7 : jsStartsWith name "tracking-" = false := by
    unfold jsStartsWith; rw [hrest]; exact startsWithL_ne2 _ _ _ _ _ _ (by decide)
  have hc8 : jsStartsWith name "leading-" = false := by
    unfold jsStartsWith; rw [hrest]; exact startsWithL_ne1 _ _ _ _ (by decide)
  have hc9 : jsStartsWith name "radius" = false := by
    unfold jsStartsWith; rw [hrest]; exact startsWithL_ne1 _ _ _ _ (by decide)
  have hc10 : jsStartsWith name "shadow-" = false := by
    unfold jsStartsWith; rw [hrest]; exact startsWithL_ne1 _ _ _ _ (by decide)
  have hc11 : jsStartsWith name "inset-shadow-" = false := by
    unfold jsStartsWith; rw [hrest]; exact startsWithL_ne1 _ _ _ _ (by decide)
  have hc12 : jsStartsWith name "drop-shadow-" = false := by
    unfold jsStartsWith; rw [hrest]; exact startsWithL_ne1 _ _ _ _ (by decide)
  have hc13 : jsStartsWith name "text-shadow-" = false := by
    cases hq : jsStartsWith name "text-shadow-" with
    | false => rfl
    | true =>
      exfalso
      obtain ⟨r2, hr2⟩ := startsWithL_exists "text-shadow-".data name.data hq
      have hocc : jsIncludes name "shadow" = true := by
        show occursL "shadow".data name.data = true
        rw [hr2]
        exact occursL_of_exists "shadow".data "text-".data ('-' :: r2)
      rw [hocc] at hsh
      cases hsh
  have hc14 : jsStartsWith name "blur" = false := by
    unfold jsStartsWith; rw [hrest]; exact startsWithL_ne1 _ _ _ _ (by decide)
  have hc15 : jsStartsWith name "backdrop-blur" = false := by
    unfold jsStartsWith; rw [hrest]; exact startsWithL_ne1 _ _ _ _ (by decide)
  have h16 : (jsStartsWith name "text-" && !jsIncludes name "shadow") = true := by
    simp [ht, hsh]
  rw [categorizeRules]
  rw [if_neg (by simp [hc1])]
  rw [if_neg hc2]
  rw [if_neg (by simp [hc3])]
  rw [if_neg (by simp [hc4])]
  rw [if_neg (by simp [hc5a, hc5b])]
  rw [if_neg (by simp [hc6])]
  rw [if_neg (by simp [hc7])]
  rw [if_neg (by simp [hc8])]
  rw [if_neg (by simp [hc9])]
  rw [if_neg (by simp [hc10])]
  rw [if_neg (by simp [hc11])]
  rw [if_neg (by simp [hc12])]
  rw [if_neg (by simp [hc13])]
  rw [if_neg (by simp [hc14])]
  rw [if_neg (by simp [hc15])]
  rw [if_pos h16]

/-- Every branch of the rule chain appends to the typography family (almost
always nothing); no step ever removes or rewrites existing entries. -/
theorem categorizeRules_typography_append (lookup : String → Option CSSVariable)
    (r : ParsedTokenSet) (v : CSSVariable) (name : String) :
    ∃ t, (categorizeRules lookup r v name).typography = r.typography ++ t := by
  rw [categorizeRules]
  by_cases h1 : jsStartsWith name "color-" = true
  · rw [if_pos h1]
    cases hx : parseColorValue v.rawValue <;> exact ⟨[], (List.append_nil _).symm⟩
  · rw [if_neg h1]
    by_cases h2 : name = "spacing"
    · rw [if_pos h2]
      cases hx : parseDimension v.rawValue <;> exact ⟨[], (List.append_nil _).symm⟩
    · rw [if_neg h2]
      by_cases h3 : jsStartsWith name "breakpoint-" = true
      · rw [if_pos h3]
        cases hx : parseDimension v.rawValue <;> exact ⟨[], (List.append_nil _).symm⟩
      · rw [if_neg h3]
        by_cases h4 : jsStartsWith name "container-" = true
        · rw [if_pos h4]
          cases hx : parseDimension v.rawValue <;> exact ⟨[], (List.append_nil _).symm⟩
        · rw [if_neg h4]
          by_cases h5 : (jsStartsWith name "max-w-" || jsStartsWith name "max-width-") = true
          · rw [if_pos h5]
            cases hx : parseDimension v.rawValue <;> exact ⟨[], (List.append_nil _).symm⟩
          · rw [if_neg h5]
            by_cases h6 : jsStartsWith name "font-weight-" = true
            · rw [if_pos h6]
              cases hx : jsParseFloat v.rawValue <;> exact ⟨[], (List.append_nil _).symm⟩
            · rw [if_neg h6]
              by_cases h7 : jsStartsWith name "tracking-" = true
              · rw [if_pos h7]
                cases hx : parseDimension v.rawValue <;> exact ⟨[], (List.append_nil _).symm⟩
              · rw [if_neg h7]
                by_cases h8 : jsStartsWith name "leading-" = true
                · rw [if_pos h8]
                  cases hx : jsParseFloat v.rawValue <;> exact ⟨[], (List.append_nil _).symm⟩
                · rw [if_neg h8]
                  by_cases h9 : jsStartsWith name "radius" = true
                  · rw [if_pos h9]
                    cases hx : parseDimension v.rawValue <;> exact ⟨[], (List.append_nil _).symm⟩
                  · rw [if_neg h9]
                    by_cases h10 : (jsStartsWith name "shadow-" && !jsStartsWith name "shadow-inner") = true
                    · rw [if_pos h10]
                      refine ⟨[], ?_⟩
                      simp only [pushShadow_typography_ite, List.append_nil]
                    · rw [if_neg h10]
                      by_cases h11 : jsStartsWith name "inset-shadow-" = true
                      · rw [if_pos h11]
                        refine ⟨[], ?_⟩
                        simp only [pushShadow_typography_ite, List.append_nil]
                      · rw [if_neg h11]
                        by_cases h12 : jsStartsWith name "drop-shadow-" = true
                        · rw [if_pos h12]
                          refine ⟨[], ?_⟩
                          simp only [pushShadow_typography_ite, List.append_nil]
                        · rw [if_neg h12]
                          by_cases h13 : jsStartsWith name "text-shadow-" = true
                          · rw [if_pos h13]
                            refine ⟨[], ?_⟩
                            simp only [pushShadow_typography_ite, List.append_nil]
                          · rw [if_neg h13]
                            by_cases h14 : jsStartsWith name "blur" = true
                            · rw [if_pos h14]
                              cases hx : parseDimension v.rawValue <;>
                                exact ⟨[], (List.append_nil _).symm⟩
                            · rw [if_neg h14]
                              by_cases h15 : jsStartsWith name "backdrop-blur" = true
                              · rw [if_pos h15]
                                cases hx : parseDimension v.rawValue <;>
                                  exact ⟨[], (List.append_nil _).symm⟩
                              · rw [if_neg h15]
                                by_cases h16 : (jsStartsWith name "text-" && !jsIncludes name "shadow") = true
                                · rw [if_pos h16]
                                  by_cases h17 : (jsEndsWith name "--line-height" || jsEndsWith name "--letter-spacing" || jsEndsWith name "--font-weight") = true
                                  · rw [if_pos h17]
                                    exact ⟨[], (List.append_nil _).symm⟩
                                  · rw [if_neg h17]
                                    cases hx : parseDimension v.rawValue with
                                    | none => exact ⟨[], (List.append_nil _).symm⟩
                                    | some dim => exact ⟨_, rfl⟩
                                · rw [if_neg h16]
                                  by_cases h18 : (jsStartsWith name "font-" && !jsStartsWith name "font-weight-") = true
                                  · rw [if_pos h18]
                                    exact ⟨[], (List.append_nil _).symm⟩
                                  · rw [if_neg h18]
                                    by_cases h19 : jsStartsWith name "opacity-" = true
                                    · rw [if_pos h19]
                                      refine ⟨[], ?_⟩
                                      simp only [borderSkewStep_typography, List.append_nil]
                                      cases hx : jsParseFloat v.rawValue <;> rfl
                                    · rw [if_neg h19]
                                      refine ⟨[], ?_⟩
                                      rw [borderSkewStep_typography, List.append_nil]

/-- Folding any variable list only appends to the typography family. -/
theorem foldl_typography_append (vars l : List CSSVariable) :
    ∀ r : ParsedTokenSet, ∃ t,
      (l.foldl (categorizeStep vars) r).typography = r.typography ++ t := by
  induction l with
  | nil => intro r; exact ⟨[], (List.append_nil _).symm⟩
  | cons v vs ih =>
    intro r
    obtain ⟨t1, h1⟩ := categorizeRules_typography_append
      (fun key => vars.find? fun lv => lv.name == key) r v (stripDashes v.name)
    have h1x : (categorizeStep vars r v).typography = r.typography ++ t1 := h1
    obtain ⟨t2, h2⟩ := ih (categorizeStep vars r v)
    exact ⟨t1 ++ t2, by rw [List.foldl_cons, h2, h1x, List.append_assoc]⟩

/-- C5: a `--text-<size>` variable with a parseable dimension and a sibling
`--text-<size>--line-height` of the form `calc(A / B)` contributes a
typography entry named `<size>` with `fontSize` the parsed dimension and
`lineHeight = A / B`; a modifier-suffixed `text-` variable leaves the token
set untouched; a value that is neither a `calc` ratio nor numeric evaluates
to absent (never zero); and the documented `sm` example yields exactly
`name "sm"`, `fontSize 14`, `lineHeight 10/7 ≈ 1.4286`. -/
theorem categorizeTokens_typography_assembly :
    (∀ (vars pre post : List CSSVariable) (s raw : String) (dim : JSQ)
        (lhVar : CSSVariable) (na nb : String) (A B : ℚ),
      vars = pre ++ (⟨"--text-" ++ s, raw⟩ : CSSVariable) :: post →
      jsIncludes ("text-" ++ s) "shadow" = false →
      jsEndsWith ("text-" ++ s) "--line-height" = false →
      jsEndsWith ("text-" ++ s) "--letter-spacing" = false →
      jsEndsWith ("text-" ++ s) "--font-weight" = false →
      parseDimension raw = some dim →
      vars.find? (fun lv => lv.name == "--" ++ ("text-" ++ s) ++ "--line-height")
        = some lhVar →
      calcFind lhVar.rawValue.data = some (na, nb) →
      jsParseFloat na = some A → jsParseFloat nb = some B → B ≠ 0 →
      ∃ (ls : Option JSQ) (fw : Option ℚ) (t1 t2 : List ParsedTypography),
        (categorizeTokens vars).typography
          = t1 ++ (⟨s, dim, some (some (A / B)), ls, fw, raw⟩ : ParsedTypography) :: t2) ∧
    (∀ (vars : List CSSVariable) (r : ParsedTokenSet) (v : CSSVariable),
      jsStartsWith (stripDashes v.name) "text-" = true →
      jsIncludes (stripDashes v.name) "shadow" = false →
      (jsEndsWith (stripDashes v.name) "--line-height" ||
       jsEndsWith (stripDashes v.name) "--letter-spacing" ||
       jsEndsWith (stripDashes v.name) "--font-weight") = true →
      categorizeStep vars r v = r) ∧
    (∀ value : String, calcFind value.data = none → jsParseFloat value = none →
      evaluateCalc value = none) ∧
    (categorizeTokens [⟨"--text-sm", "14px"⟩,
        ⟨"--text-sm--line-height", "calc(1.25 / 0.875)"⟩]).typography
      = [⟨"sm", some 14, some (some (10/7)), none, none, "14px"⟩] := by
  refine ⟨?_, ?_, ?_, ?_⟩
  · intro vars pre post s raw dim lhVar na nb A B hv hsh hm1 hm2 hm3 hdim hfind hcf hA hB hB0
    have ht : jsStartsWith ("text-" ++ s) "text-" = true := by
      unfold jsStartsWith
      rw [String.data_append]
      exact startsWithL_prefix _ _
    have hcalc : evaluateCalc lhVar.rawValue = some (some (A / B)) :=
      evaluateCalc_calcForm _ _ _ _ _ hcf hA hB hB0
    have hstep : ∀ r2 : ParsedTokenSet,
        categorizeStep vars r2 ⟨"--text-" ++ s, raw⟩
          = pushTypography r2 ⟨s, dim, some (some (A / B)),
              (match vars.find?
                  (fun lv => lv.name == "--" ++ ("text-" ++ s) ++ "--letter-spacing") with
               | some u => parseDimension u.rawValue
               | none => none),
              (match vars.find?
                  (fun lv => lv.name == "--" ++ ("text-" ++ s) ++ "--font-weight") with
               | some u => jsParseFloat u.rawValue
               | none => none),
              raw⟩ := by
      intro r2
      show categorizeRules (fun key => vars.find? fun lv => lv.name == key) r2
        ⟨"--text-" ++ s, raw⟩ ("text-" ++ s) = _
      rw [categorizeRules_text _ _ _ _ ht hsh]
      rw [if_neg (by simp [hm1, hm2, hm3])]
      simp only [hdim, hfind, hcalc, jsReplaceFirst_text]
    have hsplit : vars.foldl (categorizeStep vars) emptyTokenSet
        = post.foldl (categorizeStep vars)
            (categorizeStep vars (pre.foldl (categorizeStep vars) emptyTokenSet)
              ⟨"--text-" ++ s, raw⟩) := by
      nth_rewrite 2 [hv]
      rw [List.foldl_append, List.foldl_cons]
    obtain ⟨t1, h1⟩ := foldl_typography_append vars pre emptyTokenSet
    obtain ⟨t2, h2⟩ := foldl_typography_append vars post
      (categorizeStep vars (pre.foldl (categorizeStep vars) emptyTokenSet)
        ⟨"--text-" ++ s, raw⟩)
    refine ⟨(match vars.find?
        (fun lv => lv.name == "--" ++ ("text-" ++ s) ++ "--letter-spacing") with
       | some u => parseDimension u.rawValue
       | none => none),
      (match vars.find?
          (fun lv => lv.name == "--" ++ ("text-" ++ s) ++ "--font-weight") with
       | some u => jsParseFloat u.rawValue
       | none => none), t1, t2, ?_⟩
    rw [categorizeTokens_typography, hsplit, h2, hstep]
    show (pre.foldl (categorizeStep vars) emptyTokenSet).typography ++ _ ++ t2 = _
    rw [h1]
    show [] ++ t1 ++ _ ++ t2 = _
    simp
  · intro vars r v ht hsh hmod
    show categorizeRules (fun key => vars.find? fun lv => lv.name == key) r v
      (stripDashes v.name) = r
    rw [categorizeRules_text _ _ _ _ ht hsh, if_pos hmod]
  · intro value h1 h2
    unfold evaluateCalc
    rw [h1, h2]
  · have hfold : (([⟨"--text-sm", "14px"⟩, ⟨"--text-sm--line-height", "calc(1.25 / 0.875)"⟩] :
        List CSSVariable).foldl
          (categorizeStep [⟨"--text-sm", "14px"⟩,
            ⟨"--text-sm--line-height", "calc(1.25 / 0.875)"⟩]) emptyTokenSet).typography
        = [⟨"sm", some 14, some (some (10/7)), none, none, "14px"⟩] := by
      with_unfolding_all decide
    rw [categorizeTokens_typography, hfold]

/-- C5 (witness): the documented `sm` pair instantiates the general assembly
statement. -/
theorem categorizeTokens_typography_assembly_witness :
    parseDimension "14px" = some (some 14) ∧
    calcFind "calc(1.25 / 0.875)".data = some ("1.25", "0.875") ∧
    ∃ (ls : Option JSQ) (fw : Option ℚ) (t1 t2 : List ParsedTypography),
      (categorizeTokens [⟨"--text-sm", "14px"⟩,
          ⟨"--text-sm--line-height", "calc(1.25 / 0.875)"⟩]).typography
        = t1 ++ (⟨"sm", some 14, some (some ((5/4) / (7/8))), ls, fw, "14px"⟩ :
            ParsedTypography) :: t2 := by
  refine ⟨by with_unfolding_all decide, by with_unfolding_all decide, ?_⟩
  exact categorizeTokens_typography_assembly.1
    [⟨"--text-sm", "14px"⟩, ⟨"--text-sm--line-height", "calc(1.25 / 0.875)"⟩]
    [] [⟨"--text-sm--line-height", "calc(1.25 / 0.875)"⟩] "sm" "14px" (some 14)
    ⟨"--text-sm--line-height", "calc(1.25 / 0.875)"⟩ "1.25" "0.875" (5/4) (7/8)
    rfl (by with_unfolding_all decide) (by with_unfolding_all decide)
    (by with_unfolding_all decide) (by with_unfolding_all decide)
    (by with_unfolding_all decide) (by with_unfolding_all decide)
    (by with_unfolding_all decide) (by with_unfolding_all decide)
    (by with_unfolding_all decide) (by norm_num)

/-! ## Non-empty paths and names (claim C9) -/

/-- Spec-modelled (claim C9): the path/name invariant restricted to what the
code actually guarantees — every path array of every color and float family
is non-empty, and every shadow token name is a non-empty string.  (The
spec's stronger form — no empty path components and non-empty typography
and font names — fails, see the counterexample.) -/
def NonEmptyPaths (r : ParsedTokenSet) : Prop :=
  (∀ e ∈ r.colors, e.path ≠ []) ∧
  (∀ e ∈ r.spacing, e.path ≠ []) ∧
  (∀ e ∈ r.radius, e.path ≠ []) ∧
  (∀ e ∈ r.shadows, e.name ≠ "") ∧
  (∀ e ∈ r.blur, e.path ≠ []) ∧
  (∀ e ∈ r.backdropBlur, e.path ≠ []) ∧
  (∀ e ∈ r.opacity, e.path ≠ []) ∧
  (∀ e ∈ r.breakpoints, e.path ≠ []) ∧
  (∀ e ∈ r.containers, e.path ≠ []) ∧
  (∀ e ∈ r.fontWeights, e.path ≠ []) ∧
  (∀ e ∈ r.tracking, e.path ≠ []) ∧
  (∀ e ∈ r.leading, e.path ≠ []) ∧
  (∀ e ∈ r.borderWidth, e.path ≠ []) ∧
  (∀ e ∈ r.maxWidth, e.path ≠ []) ∧
  (∀ e ∈ r.skew, e.path ≠ [])

theorem forall_mem_append_singleton {α : Type} (P : α → Prop) (l : List α) (e : α)
    (hl : ∀ x ∈ l, P x) (he : P e) : ∀ x ∈ l ++ [e], P x := by
  intro x hx
  rcases List.mem_append.mp hx with h | h
  · exact hl x h
  · rw [List.mem_singleton.mp h]
    exact he

theorem splitOnCharL_ne_nil (sep : Char) : ∀ l, splitOnCharL sep l ≠ [] := by
  intro l
  induction l with
  | nil => simp [splitOnCharL]
  | cons c cs ih =>
    simp only [splitOnCharL]
    split
    · simp
    · cases hs : splitOnCharL sep cs <;> simp

theorem jsSplitOnChar_ne_nil (sep : Char) (s : String) : jsSplitOnChar sep s ≠ [] := by
  unfold jsSplitOnChar
  intro h
  exact splitOnCharL_ne_nil sep s.data (by simpa using h)

theorem append_ne_empty_left (a b : String) (ha : a.data ≠ []) : a ++ b ≠ "" := by
  intro h
  have hd := congrArg String.data h
  rw [String.data_append] at hd
  exact ha (List.append_eq_nil.mp hd).1

theorem nonEmptyPaths_pushShadow_ite (r : ParsedTokenSet) (c : Prop) [Decidable c]
    (e : ParsedShadow) (hr : NonEmptyPaths r) (he : e.name ≠ "") :
    NonEmptyPaths (if c then pushShadow r e else r) := by
  split
  · obtain ⟨p1, p2, p3, p4, p5, p6, p7, p8, p9, p10, p11, p12, p13, p14, p15⟩ := hr
    exact ⟨p1, p2, p3, forall_mem_append_singleton _ _ _ p4 he, p5, p6, p7, p8, p9, p10,
      p11, p12, p13, p14, p15⟩
  · exact hr

theorem borderSkewStep_nonEmptyPaths (name : String) (v : CSSVariable) (r : ParsedTokenSet)
    (hr : NonEmptyPaths r) : NonEmptyPaths (borderSkewStep name v r) := by
  obtain ⟨p1, p2, p3, p4, p5, p6, p7, p8, p9, p10, p11, p12, p13, p14, p15⟩ := id hr
  simp only [borderSkewStep]
  split
  · cases hx : parseDimension v.rawValue with
    | none => exact hr
    | some dim =>
      exact ⟨p1, p2, p3, p4, p5, p6, p7, p8, p9, p10, p11, p12,
        forall_mem_append_singleton _ _ _ p13 (jsSplitOnChar_ne_nil _ _), p14, p15⟩
  · split
    · cases hx : jsParseFloat v.rawValue with
      | none => exact hr
      | some val =>
        exact ⟨p1, p2, p3, p4, p5, p6, p7, p8, p9, p10, p11, p12, p13, p14,
          forall_mem_append_singleton _ _ _ p15 (jsSplitOnChar_ne_nil _ _)⟩
    · exact hr

/-- Every rule-chain branch appends only entries with a non-empty path (or,
for shadows, a slash-prefixed non-empty name). -/
theorem categorizeRules_nonEmptyPaths (lookup : String → Option CSSVariable)
    (r : ParsedTokenSet) (v : CSSVariable) (name : String) (hr : NonEmptyPaths r) :
    NonEmptyPaths (categorizeRules lookup r v name) := by
  obtain ⟨p1, p2, p3, p4, p5, p6, p7, p8, p9, p10, p11, p12, p13, p14, p15⟩ := id hr
  rw [categorizeRules]
  by_cases h1 : jsStartsWith name "color-" = true
  · rw [if_pos h1]
    cases hx : parseColorValue v.rawValue with
    | none => exact hr
    | some c =>
      exact ⟨forall_mem_append_singleton _ _ _ p1 (jsSplitOnChar_ne_nil _ _), p2, p3, p4,
        p5, p6, p7, p8, p9, p10, p11, p12, p13, p14, p15⟩
  · rw [if_neg h1]
    by_cases h2 : name = "spacing"
    · rw [if_pos h2]
      cases hx : parseDimension v.rawValue with
      | none => exact hr
      | some dim =>
        exact ⟨p1, forall_mem_append_singleton _ _ _ p2 (by simp), p3, p4,
          p5, p6, p7, p8, p9, p10, p11, p12, p13, p14, p15⟩
    · rw [if_neg h2]
      by_cases h3 : jsStartsWith name "breakpoint-" = true
      · rw [if_pos h3]
        cases hx : parseDimension v.rawValue with
        | none => exact hr
        | some dim =>
          exact ⟨p1, p2, p3, p4, p5, p6, p7,
            forall_mem_append_singleton _ _ _ p8 (by simp), p9, p10, p11, p12, p13, p14, p15⟩
      · rw [if_neg h3]
        by_cases h4 : jsStartsWith name "container-" = true
        · rw [if_pos h4]
          cases hx : parseDimension v.rawValue with
          | none => exact hr
          | some dim =>
            exact ⟨p1, p2, p3, p4, p5, p6, p7, p8,
              forall_mem_append_singleton _ _ _ p9 (by simp), p10, p11, p12, p13, p14, p15⟩
        · rw [if_neg h4]
          by_cases h5 : (jsStartsWith name "max-w-" || jsStartsWith name "max-width-") = true
          · rw [if_pos h5]
            cases hx : parseDimension v.rawValue with
            | none => exact hr
            | some dim =>
              exact ⟨p1, p2, p3, p4, p5, p6, p7, p8, p9, p10, p11, p12, p13,
                forall_mem_append_singleton _ _ _ p14 (by simp), p15⟩
          · rw [if_neg h5]
            by_cases h6 : jsStartsWith name "font-weight-" = true
            · rw [if_pos h6]
              cases hx : jsParseFloat v.rawValue with
              | none => exact hr
              | some val =>
                exact ⟨p1, p2, p3, p4, p5, p6, p7, p8, p9,
                  forall_mem_append_singleton _ _ _ p10 (by simp), p11, p12, p13, p14, p15⟩
            · rw [if_neg h6]
              by_cases h7 : jsStartsWith name "tracking-" = true
              · rw [if_pos h7]
                cases hx : parseDimension v.rawValue with
                | none => exact hr
                | some dim =>
                  exact ⟨p1, p2, p3, p4, p5, p6, p7, p8, p9, p10,
                    forall_mem_append_singleton _ _ _ p11 (by simp), p12, p13, p14, p15⟩
              · rw [if_neg h7]
                by_cases h8 : jsStartsWith name "leading-" = true
                · rw [if_pos h8]
                  cases hx : jsParseFloat v.rawValue with
                  | none => exact hr
                  | some val =>
                    exact ⟨p1, p2, p3, p4, p5, p6, p7, p8, p9, p10, p11,
                      forall_mem_append_singleton _ _ _ p12 (by simp), p13, p14, p15⟩
                · rw [if_neg h8]
                  by_cases h9 : jsStartsWith name "radius" = true
                  · rw [if_pos h9]
                    cases hx : parseDimension v.rawValue with
                    | none => exact hr
                    | some dim =>
                      exact ⟨p1, p2,
                        forall_mem_append_singleton _ _ _ p3
                          (by split <;> simp [jsSplitOnChar_ne_nil]),
                        p4, p5, p6, p7, p8, p9, p10, p11, p12, p13, p14, p15⟩
                  · rw [if_neg h9]
                    by_cases h10 : (jsStartsWith name "shadow-" && !jsStartsWith name "shadow-inner") = true
                    · rw [if_pos h10]
                      exact nonEmptyPaths_pushShadow_ite r _ _ hr
                        (append_ne_empty_left _ _ (by decide))
                    · rw [if_neg h10]
                      by_cases h11 : jsStartsWith name "inset-shadow-" = true
                      · rw [if_pos h11]
                        exact nonEmptyPaths_pushShadow_ite r _ _ hr
                          (append_ne_empty_left _ _ (by decide))
                      · rw [if_neg h11]
                        by_cases h12 : jsStartsWith name "drop-shadow-" = true
                        · rw [if_pos h12]
                          exact nonEmptyPaths_pushShadow_ite r _ _ hr
                            (append_ne_empty_left _ _ (by decide))
                        · rw [if_neg h12]
                          by_cases h13 : jsStartsWith name "text-shadow-" = true
                          · rw [if_pos h13]
                            exact nonEmptyPaths_pushShadow_ite r _ _ hr
                              (append_ne_empty_left _ _ (by decide))
                          · rw [if_neg h13]
                            by_cases h14 : jsStartsWith name "blur" = true
                            · rw [if_pos h14]
                              cases hx : parseDimension v.rawValue with
                              | none => exact hr
                              | some dim =>
                                exact ⟨p1, p2, p3, p4,
                                  forall_mem_append_singleton _ _ _ p5
                                    (by split <;> simp [jsSplitOnChar_ne_nil]),
                                  p6, p7, p8, p9, p10, p11, p12, p13, p14, p15⟩
                            · rw [if_neg h14]
                              by_cases h15 : jsStartsWith name "backdrop-blur" = true
                              · rw [if_pos h15]
                                cases hx : parseDimension v.rawValue with
                                | none => exact hr
                                | some dim =>
                                  exact ⟨p1, p2, p3, p4, p5,
                                    forall_mem_append_singleton _ _ _ p6
                                      (by split <;> simp [jsSplitOnChar_ne_nil]),
                                    p7, p8, p9, p10, p11, p12, p13, p14, p15⟩
                              · rw [if_neg h15]
                                by_cases h16 : (jsStartsWith name "text-" && !jsIncludes name "shadow") = true
                                · rw [if_pos h16]
                                  by_cases h17 : (jsEndsWith name "--line-height" || jsEndsWith name "--letter-spacing" || jsEndsWith name "--font-weight") = true
                                  · rw [if_pos h17]
                                    exact hr
                                  · rw [if_neg h17]
                                    cases hx : parseDimension v.rawValue with
                                    | none => exact hr
                                    | some dim => exact hr
                                · rw [if_neg h16]
                                  by_cases h18 : (jsStartsWith name "font-" && !jsStartsWith name "font-weight-") = true
                                  · rw [if_pos h18]
                                    exact hr
                                  · rw [if_neg h18]
                                    by_cases h19 : jsStartsWith name "opacity-" = true
                                    · rw [if_pos h19]
                                      cases hx : jsParseFloat v.rawValue with
                                      | none => exact borderSkewStep_nonEmptyPaths _ _ _ hr
                                      | some val =>
                                        exact borderSkewStep_nonEmptyPaths _ _ _
                                          ⟨p1, p2, p3, p4, p5, p6,
                                            forall_mem_append_singleton _ _ _ p7
                                              (jsSplitOnChar_ne_nil _ _),
                                            p8, p9, p10, p11, p12, p13, p14, p15⟩
                                    · rw [if_neg h19]
                                      exact borderSkewStep_nonEmptyPaths _ _ _ hr

theorem nonEmptyPaths_empty : NonEmptyPaths emptyTokenSet := by
  refine ⟨?_, ?_, ?_, ?_, ?_, ?_, ?_, ?_, ?_, ?_, ?_, ?_, ?_, ?_, ?_⟩ <;>
    (intro e he; cases he)

theorem foldl_nonEmptyPaths (vars l : List CSSVariable) :
    ∀ r, NonEmptyPaths r → NonEmptyPaths (l.foldl (categorizeStep vars) r) := by
  induction l with
  | nil => intro r hr; exact hr
  | cons v vs ih =>
    intro r hr
    rw [List.foldl_cons]
    exact ih _ (categorizeRules_nonEmptyPaths
      (fun key => vars.find? fun lv => lv.name == key) r v (stripDashes v.name) hr)

theorem generateSpacingScale_paths (b : JSQ) :
    ∀ x ∈ generateSpacingScale b, x.path ≠ [] := by
  intro x hx
  obtain ⟨step, hstep, hxe⟩ := List.mem_map.mp hx
  rw [← hxe]
  simp

/-- C9 (amended): for every input list the returned token set satisfies the
weakened invariant — every color/float-family path array is non-empty and
every shadow name is non-empty; the spec's stronger clauses (no empty path
components, non-empty typography and font names) are refuted by the
counterexample. -/
theorem categorizeTokens_nonempty_paths (vars : List CSSVariable) :
    NonEmptyPaths (categorizeTokens vars) := by
  have hfold := foldl_nonEmptyPaths vars vars emptyTokenSet nonEmptyPaths_empty
  simp only [categorizeTokens]
  split
  · rename_i e heq
    obtain ⟨p1, p2, p3, p4, p5, p6, p7, p8, p9, p10, p11, p12, p13, p14, p15⟩ := hfold
    exact ⟨p1, generateSpacingScale_paths _, p3, p4, p5, p6, p7, p8, p9, p10,
      p11, p12, p13, p14, p15⟩
  · exact hfold

/-- C9 (counterexample): `--text-` produces a typography token whose name is
the empty string, and `--opacity-` produces an opacity token whose path is
the one-element array containing the empty string: the claimed "non-empty
path/name for every token" is false as stated. -/
theorem categorizeTokens_empty_name_cex :
    (categorizeTokens [⟨"--text-", "14px"⟩]).typography
      = [⟨"", some 14, none, none, none, "14px"⟩] ∧
    (categorizeTokens [⟨"--opacity-", "1"⟩]).opacity = [⟨[""], some 1, "1"⟩] := by
  constructor
  · rw [categorizeTokens_typography]
    with_unfolding_all decide
  · have h : (categorizeTokens [⟨"--opacity-", "1"⟩]).opacity
        = (([⟨"--opacity-", "1"⟩] : List CSSVariable).foldl
            (categorizeStep [⟨"--opacity-", "1"⟩]) emptyTokenSet).opacity := by
      simp only [categorizeTokens]
      split <;> rfl
    rw [h]
    with_unfolding_all decide

/-! ## The oklch reference red (claim C2) -/

theorem trig_bounds (y : ℝ) (h1 : (0.2550798171:ℝ) ≤ y) (h2 : y ≤ 0.2550798984) :
    (0.252093158:ℝ) ≤ Real.sin y ∧ Real.sin y ≤ 0.252534238 ∧
    (0.967246625:ℝ) ≤ Real.cos y ∧ Real.cos y ≤ 0.967687641 := by
  have hy0 : (0:ℝ) < y := by linarith
  have hys : |y| ≤ 1 := by rw [abs_of_pos hy0]; linarith
  have hsin := Real.sin_bound hys
  have hcos := Real.cos_bound hys
  rw [abs_le] at hsin hcos
  rw [abs_of_pos hy0] at hsin hcos
  have hy2u : y^2 ≤ (0.2550798984:ℝ)^2 := pow_le_pow_left₀ hy0.le h2 2
  have hy2l : (0.2550798171:ℝ)^2 ≤ y^2 := pow_le_pow_left₀ (by norm_num) h1 2
  have hy3u : y^3 ≤ (0.2550798984:ℝ)^3 := pow_le_pow_left₀ hy0.le h2 3
  have hy3l : (0.2550798171:ℝ)^3 ≤ y^3 := pow_le_pow_left₀ (by norm_num) h1 3
  have hy4u : y^4 ≤ (0.2550798984:ℝ)^4 := pow_le_pow_left₀ hy0.le h2 4
  refine ⟨?_, ?_, ?_, ?_⟩ <;>
    nlinarith [hsin.1, hsin.2, hcos.1, hcos.2, hy2u, hy2l, hy3u, hy3l, hy4u, h1, h2]

theorem double_bounds (y : ℝ)
    (hs1 : (0.252093158:ℝ) ≤ Real.sin y) (hs2 : Real.sin y ≤ 0.252534238)
    (hc1 : (0.967246625:ℝ) ≤ Real.cos y) (hc2 : Real.cos y ≤ 0.967687641) :
    (0.872452917:ℝ) ≤ Real.cos (2*y) ∧ Real.cos (2*y) ≤ 0.87289808 ∧
    (0.487672512:ℝ) ≤ Real.sin (2*y) ∧ Real.sin (2*y) ≤ 0.488748523 := by
  have hcos2 := Real.cos_two_mul' y
  have hsin2 := Real.sin_two_mul y
  have hpyth := Real.sin_sq_add_cos_sq y
  have hs0 : (0:ℝ) ≤ Real.sin y := by linarith
  have hc0 : (0:ℝ) ≤ Real.cos y := by linarith
  have hssq_u : Real.sin y ^ 2 ≤ (0.252534238:ℝ)^2 := pow_le_pow_left₀ hs0 hs2 2
  have hssq_l : (0.252093158:ℝ)^2 ≤ Real.sin y ^ 2 := pow_le_pow_left₀ (by norm_num) hs1 2
  have hprod_u : Real.sin y * Real.cos y ≤ 0.252534238 * 0.967687641 :=
    mul_le_mul hs2 hc2 hc0 (by norm_num)
  have hprod_l : (0.252093158:ℝ) * 0.967246625 ≤ Real.sin y * Real.cos y :=
    mul_le_mul hs1 hc1 (by norm_num) hs0
  refine ⟨?_, ?_, ?_, ?_⟩ <;>
    nlinarith [hcos2, hsin2, hpyth, hssq_u, hssq_l, hprod_u, hprod_l]

theorem cube_bounds (x a b c d : ℝ) (h0 : 0 ≤ a) (h1 : a ≤ x) (h2 : x ≤ b)
    (hc : c ≤ a*a*a) (hd : b*b*b ≤ d) : c ≤ x*x*x ∧ x*x*x ≤ d := by
  have hx0 : (0:ℝ) ≤ x := le_trans h0 h1
  have hb0 : (0:ℝ) ≤ b := le_trans hx0 h2
  have hsqu : x*x ≤ b*b := mul_le_mul h2 h2 hx0 hb0
  have hcuu : x*x*x ≤ b*b*b := mul_le_mul hsqu h2 hx0 (mul_nonneg hb0 hb0)
  have hsql : a*a ≤ x*x := mul_le_mul h1 h1 h0 hx0
  have hcul : a*a*a ≤ x*x*x := mul_le_mul hsql h1 h0 (mul_nonneg hx0 hx0)
  exact ⟨le_trans hc hcul, le_trans hcuu hd⟩

theorem rpow512_pow (t : ℝ) (ht : 0 ≤ t) : (t ^ ((1:ℝ)/2.4)) ^ (12:ℕ) = t ^ (5:ℕ) := by
  rw [← Real.rpow_natCast (t ^ ((1:ℝ)/2.4)) 12, ← Real.rpow_mul ht]
  rw [show ((1:ℝ)/2.4) * ((12:ℕ):ℝ) = ((5:ℕ):ℝ) by push_cast; norm_num]
  rw [Real.rpow_natCast]

/-- Interval version of the gamma-encoding branch of `linearToSrgb` for a
channel strictly above the linear cutoff: rational 12th-power certificates
bound the real `t ^ (1/2.4)`. -/
theorem gamma_bounds (t tlo thi qlo qhi : ℝ)
    (h1 : tlo ≤ t) (h2 : t ≤ thi) (htlo : (0.0031308:ℝ) < tlo)
    (hq0 : 0 ≤ qlo) (hqh0 : 0 ≤ qhi)
    (hql : qlo ^ (12:ℕ) ≤ tlo ^ (5:ℕ)) (hqh : thi ^ (5:ℕ) ≤ qhi ^ (12:ℕ))
    (hlo0 : (0:ℝ) ≤ 1.055 * qlo - 0.055) (hhi1 : 1.055 * qhi - 0.055 ≤ 1) :
    1.055 * qlo - 0.055
        ≤ max 0 (min 1 (if t ≤ 0.0031308 then 12.92 * t
            else 1.055 * t ^ ((1:ℝ)/2.4) - 0.055)) ∧
      max 0 (min 1 (if t ≤ 0.0031308 then 12.92 * t
            else 1.055 * t ^ ((1:ℝ)/2.4) - 0.055)) ≤ 1.055 * qhi - 0.055 := by
  have ht0 : (0:ℝ) < t := lt_of_lt_of_le (lt_trans (by norm_num) htlo) h1
  rw [if_neg (not_le.mpr (lt_of_lt_of_le htlo h1))]
  have hrt : (0:ℝ) ≤ t ^ ((1:ℝ)/2.4) := Real.rpow_nonneg ht0.le _
  have hpow := rpow512_pow t ht0.le
  have hglo : qlo ≤ t ^ ((1:ℝ)/2.4) := by
    refine le_of_pow_le_pow_left₀ (n := 12) (by norm_num) hrt ?_
    rw [hpow]
    exact le_trans hql (pow_le_pow_left₀ (le_trans (by norm_num) htlo.le) h1 5)
  have hghi : t ^ ((1:ℝ)/2.4) ≤ qhi := by
    refine le_of_pow_le_pow_left₀ (n := 12) (by norm_num) hqh0 ?_
    rw [hpow]
    exact le_trans (pow_le_pow_left₀ ht0.le h2 5) hqh
  have hv1 : 1.055 * qlo - 0.055 ≤ 1.055 * t ^ ((1:ℝ)/2.4) - 0.055 := by linarith
  have hv2 : 1.055 * t ^ ((1:ℝ)/2.4) - 0.055 ≤ 1.055 * qhi - 0.055 := by linarith
  rw [min_eq_right (le_trans hv2 hhi1), max_eq_right (le_trans hlo0 hv1)]
  exact ⟨hv1, hv2⟩

/-- The reference input reaches the `oklch` branch with `L` read as a
percentage, `C` and `H` as plain numerals, and default alpha 1. -/
theorem parseColorValue_oklch_ref :
    parseColorValue "oklch(62.8% 0.25 29.23)"
      = some (oklchToRgba (some ((157/250 : ℚ) : ℝ)) (some ((1/4 : ℚ) : ℝ)) (some ((2923/100 : ℚ) : ℝ)) (some ((1 : ℚ) : ℝ))) := by
  have hnorm : jsToLower (jsTrim "oklch(62.8% 0.25 29.23)") = "oklch(62.8% 0.25 29.23)" := by
    with_unfolding_all decide
  have hof : oklchFind "oklch(62.8% 0.25 29.23)".data
      = some ("62.8", "0.25", "29.23", none) := by with_unfolding_all decide
  have hL : (if qLt (some 1) (jsParseFloat "62.8") = true
      then qDiv (jsParseFloat "62.8") (some 100) else jsParseFloat "62.8")
      = some (157/250 : ℚ) := by with_unfolding_all rfl
  have hC : jsParseFloat "0.25" = some (1/4 : ℚ) := by with_unfolding_all rfl
  have hH : jsParseFloat "29.23" = some (2923/100 : ℚ) := by with_unfolding_all rfl
  unfold parseColorValue
  rw [hnorm]
  simp only [hof, hL, hC, hH, Option.map_some']

set_option maxHeartbeats 4000000 in
/-- Validated interval bounds for the three channels of the reference red,
following the source pipeline step by step. -/
theorem oklch_ref_channel_bounds :
    ∃ u v w : ℝ,
      oklchToRgba (some ((157/250 : ℚ) : ℝ)) (some ((1/4 : ℚ) : ℝ)) (some ((2923/100 : ℚ) : ℝ)) (some ((1 : ℚ) : ℝ))
        = ⟨some u, some v, some w, some ((1 : ℚ) : ℝ)⟩ ∧
      ((0.98836335:ℝ) ≤ u ∧ u ≤ 0.988737664) ∧
      ((0.0906732395:ℝ) ≤ v ∧ v ≤ 0.0932318255) ∧
      ((0.0588677325:ℝ) ≤ w ∧ w ≤ 0.062693057) := by
  have hy1 : (0.2550798171:ℝ) ≤ ((2923/100 : ℚ) : ℝ) * Real.pi / 360 := by
    rw [show ((2923/100 : ℚ) : ℝ) = (29.23:ℝ) by norm_num]
    linarith [Real.pi_gt_d6]
  have hy2 : ((2923/100 : ℚ) : ℝ) * Real.pi / 360 ≤ 0.2550798984 := by
    rw [show ((2923/100 : ℚ) : ℝ) = (29.23:ℝ) by norm_num]
    linarith [Real.pi_lt_d6]
  obtain ⟨hs1, hs2, hc1, hc2⟩ := trig_bounds _ hy1 hy2
  obtain ⟨hC1, hC2, hS1, hS2⟩ := double_bounds _ hs1 hs2 hc1 hc2
  rw [show (2:ℝ) * (((2923/100 : ℚ) : ℝ) * Real.pi / 360) = ((2923/100 : ℚ) : ℝ) * Real.pi / 180 by ring] at hC1 hC2 hS1 hS2
  have hCc : ((1/4 : ℚ) : ℝ) = (0.25:ℝ) := by norm_num
  have hLc : ((157/250 : ℚ) : ℝ) = (0.628:ℝ) := by norm_num
  have hE1 : (0.740756902:ℝ) ≤ (((157/250 : ℚ) : ℝ) + 0.3963377774 * (((1/4 : ℚ) : ℝ) * Real.cos (((2923/100 : ℚ) : ℝ) * Real.pi / 180)) + 0.2158037573 * (((1/4 : ℚ) : ℝ) * Real.sin (((2923/100 : ℚ) : ℝ) * Real.pi / 180))) ∧ (((157/250 : ℚ) : ℝ) + 0.3963377774 * (((1/4 : ℚ) : ℝ) * Real.cos (((2923/100 : ℚ) : ℝ) * Real.pi / 180)) + 0.2158037573 * (((1/4 : ℚ) : ℝ) * Real.sin (((2923/100 : ℚ) : ℝ) * Real.pi / 180))) ≤ 0.740859064 := by
    rw [hCc, hLc]
    constructor <;> linarith [hC1, hC2, hS1, hS2]
  have hE2 : (0.597161767:ℝ) ≤ (((157/250 : ℚ) : ℝ) - 0.1055613458 * (((1/4 : ℚ) : ℝ) * Real.cos (((2923/100 : ℚ) : ℝ) * Real.pi / 180)) - 0.0638541728 * (((1/4 : ℚ) : ℝ) * Real.sin (((2923/100 : ℚ) : ℝ) * Real.pi / 180))) ∧ (((157/250 : ℚ) : ℝ) - 0.1055613458 * (((1/4 : ℚ) : ℝ) * Real.cos (((2923/100 : ℚ) : ℝ) * Real.pi / 180)) - 0.0638541728 * (((1/4 : ℚ) : ℝ) * Real.sin (((2923/100 : ℚ) : ℝ) * Real.pi / 180))) ≤ 0.597190693 := by
    rw [hCc, hLc]
    constructor <;> linarith [hC1, hC2, hS1, hS2]
  have hE3 : (0.450669444:ℝ) ≤ (((157/250 : ℚ) : ℝ) - 0.0894841775 * (((1/4 : ℚ) : ℝ) * Real.cos (((2923/100 : ℚ) : ℝ) * Real.pi / 180)) - 1.291485548 * (((1/4 : ℚ) : ℝ) * Real.sin (((2923/100 : ℚ) : ℝ) * Real.pi / 180))) ∧ (((157/250 : ℚ) : ℝ) - 0.0894841775 * (((1/4 : ℚ) : ℝ) * Real.cos (((2923/100 : ℚ) : ℝ) * Real.pi / 180)) - 1.291485548 * (((1/4 : ℚ) : ℝ) * Real.sin (((2923/100 : ℚ) : ℝ) * Real.pi / 180))) ≤ 0.451026817 := by
    rw [hCc, hLc]
    constructor <;> linarith [hC1, hC2, hS1, hS2]
  have hL3 := cube_bounds _ 0.740756902 0.740859064 0.40646871 0.40663691
    (by norm_num) hE1.1 hE1.2 (by norm_num) (by norm_num)
  have hM3 := cube_bounds _ 0.597161767 0.597190693 0.212949185 0.212980133
    (by norm_num) hE2.1 hE2.2 (by norm_num) (by norm_num)
  have hS3 := cube_bounds _ 0.450669444 0.451026817 0.091532292 0.091750216
    (by norm_num) hE3.1 hE3.2 (by norm_num) (by norm_num)
  have hR : (0.973732276:ℝ) ≤ 4.0767416621 * ((((157/250 : ℚ) : ℝ) + 0.3963377774 * (((1/4 : ℚ) : ℝ) * Real.cos (((2923/100 : ℚ) : ℝ) * Real.pi / 180)) + 0.2158037573 * (((1/4 : ℚ) : ℝ) * Real.sin (((2923/100 : ℚ) : ℝ) * Real.pi / 180))) * (((157/250 : ℚ) : ℝ) + 0.3963377774 * (((1/4 : ℚ) : ℝ) * Real.cos (((2923/100 : ℚ) : ℝ) * Real.pi / 180)) + 0.2158037573 * (((1/4 : ℚ) : ℝ) * Real.sin (((2923/100 : ℚ) : ℝ) * Real.pi / 180))) * (((157/250 : ℚ) : ℝ) + 0.3963377774 * (((1/4 : ℚ) : ℝ) * Real.cos (((2923/100 : ℚ) : ℝ) * Real.pi / 180)) + 0.2158037573 * (((1/4 : ℚ) : ℝ) * Real.sin (((2923/100 : ℚ) : ℝ) * Real.pi / 180)))) - 3.3077115913 * ((((157/250 : ℚ) : ℝ) - 0.1055613458 * (((1/4 : ℚ) : ℝ) * Real.cos (((2923/100 : ℚ) : ℝ) * Real.pi / 180)) - 0.0638541728 * (((1/4 : ℚ) : ℝ) * Real.sin (((2923/100 : ℚ) : ℝ) * Real.pi / 180))) * (((157/250 : ℚ) : ℝ) - 0.1055613458 * (((1/4 : ℚ) : ℝ) * Real.cos (((2923/100 : ℚ) : ℝ) * Real.pi / 180)) - 0.0638541728 * (((1/4 : ℚ) : ℝ) * Real.sin (((2923/100 : ℚ) : ℝ) * Real.pi / 180))) * (((157/250 : ℚ) : ℝ) - 0.1055613458 * (((1/4 : ℚ) : ℝ) * Real.cos (((2923/100 : ℚ) : ℝ) * Real.pi / 180)) - 0.0638541728 * (((1/4 : ℚ) : ℝ) * Real.sin (((2923/100 : ℚ) : ℝ) * Real.pi / 180)))) + 0.2309699292 * ((((157/250 : ℚ) : ℝ) - 0.0894841775 * (((1/4 : ℚ) : ℝ) * Real.cos (((2923/100 : ℚ) : ℝ) * Real.pi / 180)) - 1.291485548 * (((1/4 : ℚ) : ℝ) * Real.sin (((2923/100 : ℚ) : ℝ) * Real.pi / 180))) * (((157/250 : ℚ) : ℝ) - 0.0894841775 * (((1/4 : ℚ) : ℝ) * Real.cos (((2923/100 : ℚ) : ℝ) * Real.pi / 180)) - 1.291485548 * (((1/4 : ℚ) : ℝ) * Real.sin (((2923/100 : ℚ) : ℝ) * Real.pi / 180))) * (((157/250 : ℚ) : ℝ) - 0.0894841775 * (((1/4 : ℚ) : ℝ) * Real.cos (((2923/100 : ℚ) : ℝ) * Real.pi / 180)) - 1.291485548 * (((1/4 : ℚ) : ℝ) * Real.sin (((2923/100 : ℚ) : ℝ) * Real.pi / 180)))) ∧ (4.0767416621 * ((((157/250 : ℚ) : ℝ) + 0.3963377774 * (((1/4 : ℚ) : ℝ) * Real.cos (((2923/100 : ℚ) : ℝ) * Real.pi / 180)) + 0.2158037573 * (((1/4 : ℚ) : ℝ) * Real.sin (((2923/100 : ℚ) : ℝ) * Real.pi / 180))) * (((157/250 : ℚ) : ℝ) + 0.3963377774 * (((1/4 : ℚ) : ℝ) * Real.cos (((2923/100 : ℚ) : ℝ) * Real.pi / 180)) + 0.2158037573 * (((1/4 : ℚ) : ℝ) * Real.sin (((2923/100 : ℚ) : ℝ) * Real.pi / 180))) * (((157/250 : ℚ) : ℝ) + 0.3963377774 * (((1/4 : ℚ) : ℝ) * Real.cos (((2923/100 : ℚ) : ℝ) * Real.pi / 180)) + 0.2158037573 * (((1/4 : ℚ) : ℝ) * Real.sin (((2923/100 : ℚ) : ℝ) * Real.pi / 180)))) - 3.3077115913 * ((((157/250 : ℚ) : ℝ) - 0.1055613458 * (((1/4 : ℚ) : ℝ) * Real.cos (((2923/100 : ℚ) : ℝ) * Real.pi / 180)) - 0.0638541728 * (((1/4 : ℚ) : ℝ) * Real.sin (((2923/100 : ℚ) : ℝ) * Real.pi / 180))) * (((157/250 : ℚ) : ℝ) - 0.1055613458 * (((1/4 : ℚ) : ℝ) * Real.cos (((2923/100 : ℚ) : ℝ) * Real.pi / 180)) - 0.0638541728 * (((1/4 : ℚ) : ℝ) * Real.sin (((2923/100 : ℚ) : ℝ) * Real.pi / 180))) * (((157/250 : ℚ) : ℝ) - 0.1055613458 * (((1/4 : ℚ) : ℝ) * Real.cos (((2923/100 : ℚ) : ℝ) * Real.pi / 180)) - 0.0638541728 * (((1/4 : ℚ) : ℝ) * Real.sin (((2923/100 : ℚ) : ℝ) * Real.pi / 180)))) + 0.2309699292 * ((((157/250 : ℚ) : ℝ) - 0.0894841775 * (((1/4 : ℚ) : ℝ) * Real.cos (((2923/100 : ℚ) : ℝ) * Real.pi / 180)) - 1.291485548 * (((1/4 : ℚ) : ℝ) * Real.sin (((2923/100 : ℚ) : ℝ) * Real.pi / 180))) * (((157/250 : ℚ) : ℝ) - 0.0894841775 * (((1/4 : ℚ) : ℝ) * Real.cos (((2923/100 : ℚ) : ℝ) * Real.pi / 180)) - 1.291485548 * (((1/4 : ℚ) : ℝ) * Real.sin (((2923/100 : ℚ) : ℝ) * Real.pi / 180))) * (((157/250 : ℚ) : ℝ) - 0.0894841775 * (((1/4 : ℚ) : ℝ) * Real.cos (((2923/100 : ℚ) : ℝ) * Real.pi / 180)) - 1.291485548 * (((1/4 : ℚ) : ℝ) * Real.sin (((2923/100 : ℚ) : ℝ) * Real.pi / 180))))) ≤ 0.974570686 := by
    constructor <;> linarith [hL3.1, hL3.2, hM3.1, hM3.2, hS3.1, hS3.2]
  have hG : (0.008635872:ℝ) ≤ -1.2684380046 * ((((157/250 : ℚ) : ℝ) + 0.3963377774 * (((1/4 : ℚ) : ℝ) * Real.cos (((2923/100 : ℚ) : ℝ) * Real.pi / 180)) + 0.2158037573 * (((1/4 : ℚ) : ℝ) * Real.sin (((2923/100 : ℚ) : ℝ) * Real.pi / 180))) * (((157/250 : ℚ) : ℝ) + 0.3963377774 * (((1/4 : ℚ) : ℝ) * Real.cos (((2923/100 : ℚ) : ℝ) * Real.pi / 180)) + 0.2158037573 * (((1/4 : ℚ) : ℝ) * Real.sin (((2923/100 : ℚ) : ℝ) * Real.pi / 180))) * (((157/250 : ℚ) : ℝ) + 0.3963377774 * (((1/4 : ℚ) : ℝ) * Real.cos (((2923/100 : ℚ) : ℝ) * Real.pi / 180)) + 0.2158037573 * (((1/4 : ℚ) : ℝ) * Real.sin (((2923/100 : ℚ) : ℝ) * Real.pi / 180)))) + 2.6097574011 * ((((157/250 : ℚ) : ℝ) - 0.1055613458 * (((1/4 : ℚ) : ℝ) * Real.cos (((2923/100 : ℚ) : ℝ) * Real.pi / 180)) - 0.0638541728 * (((1/4 : ℚ) : ℝ) * Real.sin (((2923/100 : ℚ) : ℝ) * Real.pi / 180))) * (((157/250 : ℚ) : ℝ) - 0.1055613458 * (((1/4 : ℚ) : ℝ) * Real.cos (((2923/100 : ℚ) : ℝ) * Real.pi / 180)) - 0.0638541728 * (((1/4 : ℚ) : ℝ) * Real.sin (((2923/100 : ℚ) : ℝ) * Real.pi / 180))) * (((157/250 : ℚ) : ℝ) - 0.1055613458 * (((1/4 : ℚ) : ℝ) * Real.cos (((2923/100 : ℚ) : ℝ) * Real.pi / 180)) - 0.0638541728 * (((1/4 : ℚ) : ℝ) * Real.sin (((2923/100 : ℚ) : ℝ) * Real.pi / 180)))) - 0.3413193965 * ((((157/250 : ℚ) : ℝ) - 0.0894841775 * (((1/4 : ℚ) : ℝ) * Real.cos (((2923/100 : ℚ) : ℝ) * Real.pi / 180)) - 1.291485548 * (((1/4 : ℚ) : ℝ) * Real.sin (((2923/100 : ℚ) : ℝ) * Real.pi / 180))) * (((157/250 : ℚ) : ℝ) - 0.0894841775 * (((1/4 : ℚ) : ℝ) * Real.cos (((2923/100 : ℚ) : ℝ) * Real.pi / 180)) - 1.291485548 * (((1/4 : ℚ) : ℝ) * Real.sin (((2923/100 : ℚ) : ℝ) * Real.pi / 180))) * (((157/250 : ℚ) : ℝ) - 0.0894841775 * (((1/4 : ℚ) : ℝ) * Real.cos (((2923/100 : ℚ) : ℝ) * Real.pi / 180)) - 1.291485548 * (((1/4 : ℚ) : ℝ) * Real.sin (((2923/100 : ℚ) : ℝ) * Real.pi / 180)))) ∧ (-1.2684380046 * ((((157/250 : ℚ) : ℝ) + 0.3963377774 * (((1/4 : ℚ) : ℝ) * Real.cos (((2923/100 : ℚ) : ℝ) * Real.pi / 180)) + 0.2158037573 * (((1/4 : ℚ) : ℝ) * Real.sin (((2923/100 : ℚ) : ℝ) * Real.pi / 180))) * (((157/250 : ℚ) : ℝ) + 0.3963377774 * (((1/4 : ℚ) : ℝ) * Real.cos (((2923/100 : ℚ) : ℝ) * Real.pi / 180)) + 0.2158037573 * (((1/4 : ℚ) : ℝ) * Real.sin (((2923/100 : ℚ) : ℝ) * Real.pi / 180))) * (((157/250 : ℚ) : ℝ) + 0.3963377774 * (((1/4 : ℚ) : ℝ) * Real.cos (((2923/100 : ℚ) : ℝ) * Real.pi / 180)) + 0.2158037573 * (((1/4 : ℚ) : ℝ) * Real.sin (((2923/100 : ℚ) : ℝ) * Real.pi / 180)))) + 2.6097574011 * ((((157/250 : ℚ) : ℝ) - 0.1055613458 * (((1/4 : ℚ) : ℝ) * Real.cos (((2923/100 : ℚ) : ℝ) * Real.pi / 180)) - 0.0638541728 * (((1/4 : ℚ) : ℝ) * Real.sin (((2923/100 : ℚ) : ℝ) * Real.pi / 180))) * (((157/250 : ℚ) : ℝ) - 0.1055613458 * (((1/4 : ℚ) : ℝ) * Real.cos (((2923/100 : ℚ) : ℝ) * Real.pi / 180)) - 0.0638541728 * (((1/4 : ℚ) : ℝ) * Real.sin (((2923/100 : ℚ) : ℝ) * Real.pi / 180))) * (((157/250 : ℚ) : ℝ) - 0.1055613458 * (((1/4 : ℚ) : ℝ) * Real.cos (((2923/100 : ℚ) : ℝ) * Real.pi / 180)) - 0.0638541728 * (((1/4 : ℚ) : ℝ) * Real.sin (((2923/100 : ℚ) : ℝ) * Real.pi / 180)))) - 0.3413193965 * ((((157/250 : ℚ) : ℝ) - 0.0894841775 * (((1/4 : ℚ) : ℝ) * Real.cos (((2923/100 : ℚ) : ℝ) * Real.pi / 180)) - 1.291485548 * (((1/4 : ℚ) : ℝ) * Real.sin (((2923/100 : ℚ) : ℝ) * Real.pi / 180))) * (((157/250 : ℚ) : ℝ) - 0.0894841775 * (((1/4 : ℚ) : ℝ) * Real.cos (((2923/100 : ℚ) : ℝ) * Real.pi / 180)) - 1.291485548 * (((1/4 : ℚ) : ℝ) * Real.sin (((2923/100 : ℚ) : ℝ) * Real.pi / 180))) * (((157/250 : ℚ) : ℝ) - 0.0894841775 * (((1/4 : ℚ) : ℝ) * Real.cos (((2923/100 : ℚ) : ℝ) * Real.pi / 180)) - 1.291485548 * (((1/4 : ℚ) : ℝ) * Real.sin (((2923/100 : ℚ) : ℝ) * Real.pi / 180))))) ≤ 0.009004373 := by
    constructor <;> linarith [hL3.1, hL3.2, hM3.1, hM3.2, hS3.1, hS3.2]
  have hB : (0.004781413:ℝ) ≤ -0.0041960863 * ((((157/250 : ℚ) : ℝ) + 0.3963377774 * (((1/4 : ℚ) : ℝ) * Real.cos (((2923/100 : ℚ) : ℝ) * Real.pi / 180)) + 0.2158037573 * (((1/4 : ℚ) : ℝ) * Real.sin (((2923/100 : ℚ) : ℝ) * Real.pi / 180))) * (((157/250 : ℚ) : ℝ) + 0.3963377774 * (((1/4 : ℚ) : ℝ) * Real.cos (((2923/100 : ℚ) : ℝ) * Real.pi / 180)) + 0.2158037573 * (((1/4 : ℚ) : ℝ) * Real.sin (((2923/100 : ℚ) : ℝ) * Real.pi / 180))) * (((157/250 : ℚ) : ℝ) + 0.3963377774 * (((1/4 : ℚ) : ℝ) * Real.cos (((2923/100 : ℚ) : ℝ) * Real.pi / 180)) + 0.2158037573 * (((1/4 : ℚ) : ℝ) * Real.sin (((2923/100 : ℚ) : ℝ) * Real.pi / 180)))) - 0.7034186147 * ((((157/250 : ℚ) : ℝ) - 0.1055613458 * (((1/4 : ℚ) : ℝ) * Real.cos (((2923/100 : ℚ) : ℝ) * Real.pi / 180)) - 0.0638541728 * (((1/4 : ℚ) : ℝ) * Real.sin (((2923/100 : ℚ) : ℝ) * Real.pi / 180))) * (((157/250 : ℚ) : ℝ) - 0.1055613458 * (((1/4 : ℚ) : ℝ) * Real.cos (((2923/100 : ℚ) : ℝ) * Real.pi / 180)) - 0.0638541728 * (((1/4 : ℚ) : ℝ) * Real.sin (((2923/100 : ℚ) : ℝ) * Real.pi / 180))) * (((157/250 : ℚ) : ℝ) - 0.1055613458 * (((1/4 : ℚ) : ℝ) * Real.cos (((2923/100 : ℚ) : ℝ) * Real.pi / 180)) - 0.0638541728 * (((1/4 : ℚ) : ℝ) * Real.sin (((2923/100 : ℚ) : ℝ) * Real.pi / 180)))) + 1.707614701 * ((((157/250 : ℚ) : ℝ) - 0.0894841775 * (((1/4 : ℚ) : ℝ) * Real.cos (((2923/100 : ℚ) : ℝ) * Real.pi / 180)) - 1.291485548 * (((1/4 : ℚ) : ℝ) * Real.sin (((2923/100 : ℚ) : ℝ) * Real.pi / 180))) * (((157/250 : ℚ) : ℝ) - 0.0894841775 * (((1/4 : ℚ) : ℝ) * Real.cos (((2923/100 : ℚ) : ℝ) * Real.pi / 180)) - 1.291485548 * (((1/4 : ℚ) : ℝ) * Real.sin (((2923/100 : ℚ) : ℝ) * Real.pi / 180))) * (((157/250 : ℚ) : ℝ) - 0.0894841775 * (((1/4 : ℚ) : ℝ) * Real.cos (((2923/100 : ℚ) : ℝ) * Real.pi / 180)) - 1.291485548 * (((1/4 : ℚ) : ℝ) * Real.sin (((2923/100 : ℚ) : ℝ) * Real.pi / 180)))) ∧ (-0.0041960863 * ((((157/250 : ℚ) : ℝ) + 0.3963377774 * (((1/4 : ℚ) : ℝ) * Real.cos (((2923/100 : ℚ) : ℝ) * Real.pi / 180)) + 0.2158037573 * (((1/4 : ℚ) : ℝ) * Real.sin (((2923/100 : ℚ) : ℝ) * Real.pi / 180))) * (((157/250 : ℚ) : ℝ) + 0.3963377774 * (((1/4 : ℚ) : ℝ) * Real.cos (((2923/100 : ℚ) : ℝ) * Real.pi / 180)) + 0.2158037573 * (((1/4 : ℚ) : ℝ) * Real.sin (((2923/100 : ℚ) : ℝ) * Real.pi / 180))) * (((157/250 : ℚ) : ℝ) + 0.3963377774 * (((1/4 : ℚ) : ℝ) * Real.cos (((2923/100 : ℚ) : ℝ) * Real.pi / 180)) + 0.2158037573 * (((1/4 : ℚ) : ℝ) * Real.sin (((2923/100 : ℚ) : ℝ) * Real.pi / 180)))) - 0.7034186147 * ((((157/250 : ℚ) : ℝ) - 0.1055613458 * (((1/4 : ℚ) : ℝ) * Real.cos (((2923/100 : ℚ) : ℝ) * Real.pi / 180)) - 0.0638541728 * (((1/4 : ℚ) : ℝ) * Real.sin (((2923/100 : ℚ) : ℝ) * Real.pi / 180))) * (((157/250 : ℚ) : ℝ) - 0.1055613458 * (((1/4 : ℚ) : ℝ) * Real.cos (((2923/100 : ℚ) : ℝ) * Real.pi / 180)) - 0.0638541728 * (((1/4 : ℚ) : ℝ) * Real.sin (((2923/100 : ℚ) : ℝ) * Real.pi / 180))) * (((157/250 : ℚ) : ℝ) - 0.1055613458 * (((1/4 : ℚ) : ℝ) * Real.cos (((2923/100 : ℚ) : ℝ) * Real.pi / 180)) - 0.0638541728 * (((1/4 : ℚ) : ℝ) * Real.sin (((2923/100 : ℚ) : ℝ) * Real.pi / 180)))) + 1.707614701 * ((((157/250 : ℚ) : ℝ) - 0.0894841775 * (((1/4 : ℚ) : ℝ) * Real.cos (((2923/100 : ℚ) : ℝ) * Real.pi / 180)) - 1.291485548 * (((1/4 : ℚ) : ℝ) * Real.sin (((2923/100 : ℚ) : ℝ) * Real.pi / 180))) * (((157/250 : ℚ) : ℝ) - 0.0894841775 * (((1/4 : ℚ) : ℝ) * Real.cos (((2923/100 : ℚ) : ℝ) * Real.pi / 180)) - 1.291485548 * (((1/4 : ℚ) : ℝ) * Real.sin (((2923/100 : ℚ) : ℝ) * Real.pi / 180))) * (((157/250 : ℚ) : ℝ) - 0.0894841775 * (((1/4 : ℚ) : ℝ) * Real.cos (((2923/100 : ℚ) : ℝ) * Real.pi / 180)) - 1.291485548 * (((1/4 : ℚ) : ℝ) * Real.sin (((2923/100 : ℚ) : ℝ) * Real.pi / 180))))) ≤ 0.00517602 := by
    constructor <;> linarith [hL3.1, hL3.2, hM3.1, hM3.2, hS3.1, hS3.2]
  have hgr := gamma_bounds _ 0.973732276 0.974570686 0.98897 0.9893248 hR.1 hR.2
    (by norm_num) (by norm_num) (by norm_num) (by norm_num) (by norm_num)
    (by norm_num) (by norm_num)
  have hgg := gamma_bounds _ 0.008635872 0.009004373 0.1380789 0.1405041 hG.1 hG.2
    (by norm_num) (by norm_num) (by norm_num) (by norm_num) (by norm_num)
    (by norm_num) (by norm_num)
  have hgb := gamma_bounds _ 0.004781413 0.00517602 0.1079315 0.1115574 hB.1 hB.2
    (by norm_num) (by norm_num) (by norm_num) (by norm_num) (by norm_num)
    (by norm_num) (by norm_num)
  refine ⟨_, _, _, rfl, ?_, ?_, ?_⟩
  · exact ⟨by linarith [hgr.1], by linarith [hgr.2]⟩
  · exact ⟨by linarith [hgg.1], by linarith [hgg.2]⟩
  · exact ⟨by linarith [hgb.1], by linarith [hgb.2]⟩

/-- C2 (amended): the documented pipeline on `oklch(62.8% 0.25 29.23)`
yields approximately `(0.9886, 0.0919, 0.0605)`, each channel within
tolerance 0.01 — not the claimed `(0.9999, 0.2253, 0.1253)`. -/
theorem parseColorValue_oklch_reference :
    ∃ c : FigmaColor, parseColorValue "oklch(62.8% 0.25 29.23)" = some c ∧
      ∃ u v w : ℝ, c.r = some u ∧ c.g = some v ∧ c.b = some w ∧
        |u - 0.9886| ≤ 0.01 ∧ |v - 0.0919| ≤ 0.01 ∧ |w - 0.0605| ≤ 0.01 := by
  obtain ⟨u, v, w, heq, hu, hv, hw⟩ := oklch_ref_channel_bounds
  refine ⟨_, by rw [parseColorValue_oklch_ref, heq], u, v, w, rfl, rfl, rfl, ?_, ?_, ?_⟩
  · rw [abs_le]; constructor <;> linarith [hu.1, hu.2]
  · rw [abs_le]; constructor <;> linarith [hv.1, hv.2]
  · rw [abs_le]; constructor <;> linarith [hw.1, hw.2]

/-- C2 (counterexample): every channel of the computed color differs from
the spec's claimed reference `(0.9999, 0.2253, 0.1253)` by more than the
stated tolerance 0.01. -/
theorem parseColorValue_oklch_claimed_cex :
    ∃ c : FigmaColor, parseColorValue "oklch(62.8% 0.25 29.23)" = some c ∧
      ∃ u v w : ℝ, c.r = some u ∧ c.g = some v ∧ c.b = some w ∧
        ¬(|u - 0.9999| ≤ 0.01) ∧ ¬(|v - 0.2253| ≤ 0.01) ∧ ¬(|w - 0.1253| ≤ 0.01) := by
  obtain ⟨u, v, w, heq, hu, hv, hw⟩ := oklch_ref_channel_bounds
  refine ⟨_, by rw [parseColorValue_oklch_ref, heq], u, v, w, rfl, rfl, rfl, ?_, ?_, ?_⟩
  · refine not_le.mpr ?_
    rw [abs_sub_comm, abs_of_pos (by linarith [hu.2])]
    linarith [hu.2]
  · refine not_le.mpr ?_
    rw [abs_sub_comm, abs_of_pos (by linarith [hv.2])]
    linarith [hv.2]
  · refine not_le.mpr ?_
    rw [abs_sub_comm, abs_of_pos (by linarith [hw.2])]
    linarith [hw.2]

end StyleForge
